import Mathlib

/-!
# Verification of the alphatest_faucet claim pipeline

A shallow embedding of the L1-to-L3 token faucet proxy: the bech32 address
codec (`AddressService.validateAddress`), the Bitcoin-style message hasher
(`SignatureService.createMessageHash`), the recoverable-signature parser
(`SignatureService.parseSignature`), the balance store
(`BalanceRepository`), the claim coordinator
(`BalanceService.processMintRequest`), the balance query
(`BalanceService.getBalance` and its HTTP route), and the snapshot builder
(`cli/snapshot.js`).

Conventions of the embedding:
* JavaScript strings become `String` / `List Char`; byte buffers become
  `List Nat` with each entry < 256.
* `String.prototype.toLowerCase` is modelled by ASCII case folding
  (`jsLower`), which agrees with JavaScript on the ASCII range that every
  check in the source constrains inputs to; SQLite's `COLLATE NOCASE` is
  likewise ASCII folding, so the same function models both.
* SQLite tables become Lean lists of records; a prepared statement becomes a
  pure function from the database value to (result, new database).
* The event-loop concurrency of `better-sqlite3` immediate transactions is
  sequential interleaving of whole transactions, which is exactly the
  serialization the journal provides.
* The upstream faucet and the ECDSA verifier are oracles: the pipeline takes
  their outcome as a parameter, since the claims under study quantify over
  those outcomes.
-/

namespace Faucet

/-- A byte string: each entry is intended to be < 256. -/
abbrev Bytes := List Nat

/-- ASCII lower-casing of one character: model of what
`String.prototype.toLowerCase` does on the ASCII range. -/
def jsLower (c : Char) : Char :=
  if 65 ≤ c.toNat ∧ c.toNat ≤ 90 then Char.ofNat (c.toNat + 32) else c

/-- ASCII upper-casing of one character (used by the bech32 library's
mixed-case check). -/
def jsUpper (c : Char) : Char :=
  if 97 ≤ c.toNat ∧ c.toNat ≤ 122 then Char.ofNat (c.toNat - 32) else c

/-- ASCII lower-casing of a string, as a character list. -/
def lowerChars (s : List Char) : List Char := s.map jsLower

/-- ASCII lower-casing of a `String`. -/
def lowerStr (s : String) : String := ⟨lowerChars s.data⟩

/-! ## The bech32 library (npm `bech32`, as used by `AddressService`)

Transliterated from the library the repository depends on: `polymodStep`,
`prefixChk`, `__decode` (split at the *last* `'1'`, checksum over the
expanded prefix and all data words, returning the words minus the six
checksum words) and `fromWords` (= `convert(words, 5, 8, false)`).
JavaScript 32-bit bitwise arithmetic stays within 30 bits here
(`(pre & 0x1ffffff) << 5` is the widest intermediate), so plain `Nat`
bitwise operations model it exactly. -/

/-- The bech32 data alphabet. -/
def CHARSET : List Char := "qpzry9x8gf2tvdw0s3jn54khce6mua7l".data

/-- Index of a character in the bech32 alphabet (`ALPHABET_MAP`). -/
def charsetIndex (c : Char) : Option Nat := CHARSET.findIdx? (· = c)

/-- Membership in the bech32 alphabet. -/
def inCharset (c : Char) : Bool := CHARSET.contains c

/-- One step of the BCH checksum: `polymodStep` from the bech32 library.
`-((b >> i) & 1) & G` is `G` when the bit is set and `0` otherwise. -/
def polymodStep (pre : Nat) : Nat :=
  let b := pre >>> 25
  ((pre &&& 0x1ffffff) <<< 5)
    ^^^ (if b &&& 1 = 1 then 0x3b6a57b2 else 0)
    ^^^ (if (b >>> 1) &&& 1 = 1 then 0x26508e6d else 0)
    ^^^ (if (b >>> 2) &&& 1 = 1 then 0x1ea119fa else 0)
    ^^^ (if (b >>> 3) &&& 1 = 1 then 0x3d4233dd else 0)
    ^^^ (if (b >>> 4) &&& 1 = 1 then 0x2a1462b3 else 0)

/-- `prefixChk`: checksum over the expanded human-readable prefix; rejects
characters outside the printable ASCII range `[33, 126]`. -/
def prefixChk (p : List Char) : Except String Nat :=
  if p.any (fun c => c.toNat < 33 ∨ 126 < c.toNat) then .error "Invalid prefix"
  else
    let chk1 := p.foldl (fun chk c => polymodStep chk ^^^ (c.toNat >>> 5)) 1
    let chk2 := polymodStep chk1
    .ok (p.foldl (fun chk c => polymodStep chk ^^^ (c.toNat &&& 31)) chk2)

/-- Split a character list at the *last* `'1'` (`str.lastIndexOf('1')`):
returns `(prefix, data)` with the original list `prefix ++ '1' :: data`,
or `none` when no `'1'` occurs. -/
def lastSplit1 (l : List Char) : Option (List Char × List Char) :=
  let r := l.reverse
  match r.dropWhile (fun c => c ≠ '1') with
  | [] => none
  | _ :: revPre => some (revPre.reverse, (r.takeWhile (fun c => c ≠ '1')).reverse)

/-- The decode loop: map each data character through the alphabet,
accumulating the checksum and the word list. -/
def decodeWords : List Char → Nat → List Nat → Except String (Nat × List Nat)
  | [], chk, ws => .ok (chk, ws)
  | c :: rest, chk, ws =>
    match charsetIndex c with
    | none => .error "Unknown character"
    | some v => decodeWords rest (polymodStep chk ^^^ v) (ws ++ [v])

/-- `bech32.decode` (`__decode` with the default limit 90): length bounds,
mixed-case rejection, split at the last `'1'`, prefix checksum, data words,
checksum must equal 1; returns the prefix and the words minus the six
checksum words. -/
def bech32Decode (s : List Char) : Except String (List Char × List Nat) :=
  if s.length < 8 then .error "too short"
  else if s.length > 90 then .error "Exceeds length limit"
  else
    let lowered := lowerChars s
    let upped := s.map jsUpper
    if s ≠ lowered ∧ s ≠ upped then .error "Mixed-case string"
    else
      match lastSplit1 lowered with
      | none => .error "No separator character"
      | some (pre, dataPart) =>
        if pre = [] then .error "Missing prefix"
        else if dataPart.length < 6 then .error "Data too short"
        else
          match prefixChk pre with
          | .error e => .error e
          | .ok chk0 =>
            match decodeWords dataPart chk0 [] with
            | .error e => .error e
            | .ok (chk, ws) =>
              if chk ≠ 1 then .error "Invalid checksum"
              else .ok (pre, ws.take (ws.length - 6))

/-- The worker of `fromWords` (= `convert(data, 5, 8, false)`). The
library's inner `while (bits >= outBits)` loop runs at most once per input
word because `inBits = 5 < 8 = outBits` keeps `bits` below 13, so a single
conditional emission is an exact rendering. -/
def fromWordsGo : List Nat → Nat → Nat → List Nat → Except String (List Nat)
  | [], value, bits, acc =>
    if bits ≥ 5 then .error "Excess padding"
    else if (value <<< (8 - bits)) &&& 255 ≠ 0 then .error "Non-zero padding"
    else .ok acc.reverse
  | d :: rest, value, bits, acc =>
    let v := (value <<< 5) ||| d
    let b := bits + 5
    if b ≥ 8 then fromWordsGo rest v (b - 8) (((v >>> (b - 8)) &&& 255) :: acc)
    else fromWordsGo rest v b acc

/-- `bech32.fromWords`: regroup 5-bit words into bytes, rejecting excess or
non-zero padding. -/
def fromWords (ws : List Nat) : Except String (List Nat) := fromWordsGo ws 0 0 []

/-! ## `AddressService.validateAddress` -/

/-- `ADDRESS_CONFIG.hrp`. -/
def HRP : List Char := "alpha".data

/-- `ADDRESS_CONFIG.witnessVersion`. -/
def WITNESS_VERSION : Nat := 0

/-- A lowercase ASCII letter, the `[a-z]` character class. -/
def isLowerAz (c : Char) : Bool := 97 ≤ c.toNat && c.toNat ≤ 122

/-- The test `/^[a-z]+1[qpzry9x8gf2tvdw0s3jn54khce6mua7l]+$/.test(s)`.
Neither `[a-z]` nor the bech32 alphabet contains `'1'`, so the regex's
separator `'1'` can only match the first `'1'` of the string; the regex
therefore holds exactly when the part before the first `'1'` is a nonempty
run of lowercase letters and the part after it is a nonempty run of
alphabet characters. -/
def matchesValidChars (l : List Char) : Bool :=
  let before := l.takeWhile (fun c => c ≠ '1')
  match l.dropWhile (fun c => c ≠ '1') with
  | [] => false
  | _ :: after =>
    (!before.isEmpty) && before.all isLowerAz && (!after.isEmpty) && after.all inCharset

/-- The result shape of `validateAddress`. -/
structure AddrValidation where
  valid : Bool
  error : Option String
  normalized : Option String
  deriving Repr, DecidableEq

/-- `AddressService.validateAddress` after the initial lowercasing: prefix
check, length check, character-class check, bech32 decode inside a
`try`/`catch` (both `bech32.decode` and `bech32.fromWords` throw into the
same handler), HRP comparison, witness version, 20-byte program. -/
def validateCore (low : List Char) : AddrValidation :=
  if ¬ (HRP ++ ['1']).isPrefixOf low then
    ⟨false, some "Address must start with alpha1", none⟩
  else if low.length < 14 ∨ 74 < low.length then
    ⟨false, some "Invalid address length", none⟩
  else if ¬ matchesValidChars low then
    ⟨false, some "Address contains invalid characters", none⟩
  else
    match bech32Decode low with
    | .error e => ⟨false, some ("Bech32 decode failed: " ++ e), none⟩
    | .ok (pre, words) =>
      if pre ≠ HRP then ⟨false, some "Invalid HRP", none⟩
      else
        match fromWords (words.drop 1) with
        | .error e => ⟨false, some ("Bech32 decode failed: " ++ e), none⟩
        | .ok data =>
          if words.head? ≠ some WITNESS_VERSION then
            ⟨false, some "Invalid witness version", none⟩
          else if data.length ≠ 20 then
            ⟨false, some "Invalid witness program length", none⟩
          else ⟨true, none, some ⟨low⟩⟩

/-- `AddressService.validateAddress`: normalize to lowercase, then run the
checks. (The JavaScript `typeof address !== 'string'` guard is made
vacuous by the `String` input type.) -/
def validateAddress (address : String) : AddrValidation :=
  validateCore (lowerChars address.data)

/-- The specification's validity predicate on the lowercased form,
following its enumerated checks: (2) starts with `alpha1`; (3) length in
[14, 74]; (4) only the bech32 alphabet after the separator; (5) bech32
decode succeeds with checksum valid and HRP `alpha`; (6) first 5-bit word
is 0; (7) remaining words decode to exactly 20 bytes. -/
def specCore (low : List Char) : Bool :=
  ("alpha1".data.isPrefixOf low) &&
  ((14 ≤ low.length && low.length ≤ 74) &&
  (((low.drop 6).all inCharset) &&
  (match bech32Decode low with
   | .ok (pre, words) =>
     (pre = "alpha".data : Bool) && ((words.head? == some 0) &&
     (match fromWords (words.drop 1) with
      | .ok data => data.length == 20
      | .error _ => false))
   | .error _ => false)))

/-- The specification's validity predicate: checks (2)-(7) applied to the
lowercased input (check (1), input is text, is the `String` type). -/
def addressSpecOk (address : String) : Bool :=
  specCore (lowerChars address.data)

/-! ## SHA-256 (the `crypto` `sha256` digest used by the message hasher)

A direct rendering of FIPS 180-4 over byte lists, with 32-bit words as
`Nat` reduced mod `2 ^ 32` where additions may overflow. -/

/-- Right rotation of a 32-bit word. -/
def rotr (n x : Nat) : Nat := ((x >>> n) ||| (x <<< (32 - n))) &&& 0xFFFFFFFF

/-- The 64 SHA-256 round constants. -/
def sha256K : List Nat :=
  [1116352408, 1899447441, 3049323471, 3921009573, 961987163, 1508970993,
   2453635748, 2870763221, 3624381080, 310598401, 607225278, 1426881987,
   1925078388, 2162078206, 2614888103, 3248222580, 3835390401, 4022224774,
   264347078, 604807628, 770255983, 1249150122, 1555081692, 1996064986,
   2554220882, 2821834349, 2952996808, 3210313671, 3336571891, 3584528711,
   113926993, 338241895, 666307205, 773529912, 1294757372, 1396182291,
   1695183700, 1986661051, 2177026350, 2456956037, 2730485921, 2820302411,
   3259730800, 3345764771, 3516065817, 3600352804, 4094571909, 275423344,
   430227734, 506948616, 659060556, 883997877, 958139571, 1322822218,
   1537002063, 1747873779, 1955562222, 2024104815, 2227730452, 2361852424,
   2428436474, 2756734187, 3204031479, 3329325298]

/-- SHA-256 message padding: `0x80`, zeros to 56 mod 64, then the bit
length as a 64-bit big-endian integer. -/
def sha256Pad (msg : Bytes) : Bytes :=
  let bitLen := 8 * msg.length
  let padZeros := (119 - msg.length % 64) % 64
  msg ++ [0x80] ++ List.replicate padZeros 0 ++
    [(bitLen >>> 56) &&& 255, (bitLen >>> 48) &&& 255, (bitLen >>> 40) &&& 255,
     (bitLen >>> 32) &&& 255, (bitLen >>> 24) &&& 255, (bitLen >>> 16) &&& 255,
     (bitLen >>> 8) &&& 255, bitLen &&& 255]

/-- Group bytes into 32-bit big-endian words. -/
def bytesToWords : Bytes → List Nat
  | a :: b :: c :: d :: rest =>
    ((a <<< 24) ||| (b <<< 16) ||| (c <<< 8) ||| d) :: bytesToWords rest
  | _ => []

/-- Split a word list into 16-word blocks. -/
def chunk16 (l : List Nat) : List (List Nat) :=
  if h : l = [] then []
  else l.take 16 :: chunk16 (l.drop 16)
termination_by l.length
decreasing_by
  cases l with
  | nil => exact absurd rfl h
  | cons a t => simp; omega

/-- The eight-word working state. -/
structure Hash8 where
  a : Nat
  b : Nat
  c : Nat
  d : Nat
  e : Nat
  f : Nat
  g : Nat
  h : Nat
  deriving Repr, DecidableEq

/-- The SHA-256 initial hash value. -/
def sha256Init : Hash8 :=
  ⟨1779033703, 3144134277, 1013904242, 2773480762,
   1359893119, 2600822924, 528734635, 1541459225⟩

/-- Message-schedule extension: 48 pushes of
`σ1(w[i-2]) + w[i-7] + σ0(w[i-15]) + w[i-16]`. -/
def sha256Schedule (ws : List Nat) : Array Nat :=
  (List.range 48).foldl
    (fun w j =>
      let s0 := rotr 7 (w.getD (j + 1) 0) ^^^ rotr 18 (w.getD (j + 1) 0)
        ^^^ ((w.getD (j + 1) 0) >>> 3)
      let s1 := rotr 17 (w.getD (j + 14) 0) ^^^ rotr 19 (w.getD (j + 14) 0)
        ^^^ ((w.getD (j + 14) 0) >>> 10)
      w.push ((s1 + w.getD (j + 9) 0 + s0 + w.getD j 0) % 4294967296))
    ws.toArray

/-- One round of the SHA-256 compression function. -/
def sha256Round (w : Array Nat) (st : Hash8) (i : Nat) : Hash8 :=
  let ch := (st.e &&& st.f) ^^^ ((st.e ^^^ 0xFFFFFFFF) &&& st.g)
  let maj := (st.a &&& st.b) ^^^ (st.a &&& st.c) ^^^ (st.b &&& st.c)
  let S1 := rotr 6 st.e ^^^ rotr 11 st.e ^^^ rotr 25 st.e
  let S0 := rotr 2 st.a ^^^ rotr 13 st.a ^^^ rotr 22 st.a
  let t1 := (st.h + S1 + ch + sha256K.getD i 0 + w.getD i 0) % 4294967296
  let t2 := (S0 + maj) % 4294967296
  ⟨(t1 + t2) % 4294967296, st.a, st.b, st.c,
   (st.d + t1) % 4294967296, st.e, st.f, st.g⟩

/-- Compress one 16-word block into the running hash. -/
def sha256Compress (h : Hash8) (block : List Nat) : Hash8 :=
  let w := sha256Schedule block
  let st := (List.range 64).foldl (sha256Round w) h
  ⟨(h.a + st.a) % 4294967296, (h.b + st.b) % 4294967296,
   (h.c + st.c) % 4294967296, (h.d + st.d) % 4294967296,
   (h.e + st.e) % 4294967296, (h.f + st.f) % 4294967296,
   (h.g + st.g) % 4294967296, (h.h + st.h) % 4294967296⟩

/-- A 32-bit word as four big-endian bytes. -/
def wordBytes (x : Nat) : Bytes :=
  [(x >>> 24) &&& 255, (x >>> 16) &&& 255, (x >>> 8) &&& 255, x &&& 255]

/-- SHA-256 of a byte string. -/
def sha256 (msg : Bytes) : Bytes :=
  let final := (chunk16 (bytesToWords (sha256Pad msg))).foldl sha256Compress sha256Init
  wordBytes final.a ++ wordBytes final.b ++ wordBytes final.c ++ wordBytes final.d ++
  wordBytes final.e ++ wordBytes final.f ++ wordBytes final.g ++ wordBytes final.h

/-! ## `SignatureService.createMessageHash` (C7) -/

/-- `MESSAGE_PREFIX` as ASCII bytes: `"Alpha Signed Message:\n"`. -/
def MESSAGE_PREFIX_BYTES : Bytes := "Alpha Signed Message:\n".data.map Char.toNat

/-- `SignatureService._encodeVarInt`: one raw byte, or a `253`/`254` marker
followed by the value written with `writeUInt16LE`/`writeUInt32LE`
(little-endian byte extraction), or a thrown error. -/
def encodeVarInt (n : Nat) : Except String Bytes :=
  if n < 253 then .ok [n]
  else if n < 0x10000 then .ok [253, n &&& 255, (n >>> 8) &&& 255]
  else if n < 0x100000000 then
    .ok [254, n &&& 255, (n >>> 8) &&& 255, (n >>> 16) &&& 255, (n >>> 24) &&& 255]
  else .error "VarInt too large"

/-- `SignatureService.createMessageHash`: double SHA-256 of
`varint(|prefix|) ++ prefix ++ varint(|message|) ++ message`; the prefix
length is encoded first, so its (unreachable) error would take precedence. -/
def createMessageHash (message : Bytes) : Except String Bytes :=
  match encodeVarInt MESSAGE_PREFIX_BYTES.length with
  | .error e => .error e
  | .ok prefixLenBuf =>
    match encodeVarInt message.length with
    | .error e => .error e
    | .ok messageLenBuf =>
      .ok (sha256 (sha256 (prefixLenBuf ++ MESSAGE_PREFIX_BYTES ++ messageLenBuf ++ message)))

/-- Bitcoin CompactSize, written from the specification's words: one raw
byte for `n < 253`; `0xFD` plus little-endian u16 for `n < 2^16`; `0xFE`
plus little-endian u32 for `n < 2^32`; an error for larger `n`. -/
def compactSize (n : Nat) : Except String Bytes :=
  if n < 253 then .ok [n]
  else if n < 2 ^ 16 then .ok [0xFD, n % 256, n / 2 ^ 8 % 256]
  else if n < 2 ^ 32 then
    .ok [0xFE, n % 256, n / 2 ^ 8 % 256, n / 2 ^ 16 % 256, n / 2 ^ 24 % 256]
  else .error "VarInt too large"

/-- The digest as the specification describes it:
`SHA256(SHA256(varint(|prefix|) ++ prefix ++ varint(|message|) ++ message))`
with `varint` the CompactSize encoding. -/
def specMessageDigest (message : Bytes) : Except String Bytes :=
  match compactSize MESSAGE_PREFIX_BYTES.length with
  | .error e => .error e
  | .ok pm =>
    match compactSize message.length with
    | .error e => .error e
    | .ok mm => .ok (sha256 (sha256 (pm ++ MESSAGE_PREFIX_BYTES ++ mm ++ message)))

/-! ## `SignatureService.parseSignature` (C4) -/

/-- A hexadecimal digit, the regex class `[0-9a-fA-F]`. -/
def isHexChar (c : Char) : Bool :=
  (48 ≤ c.toNat && c.toNat ≤ 57) || (97 ≤ c.toNat && c.toNat ≤ 102) ||
  (65 ≤ c.toNat && c.toNat ≤ 70)

/-- The value of one hex digit. -/
def hexVal (c : Char) : Nat :=
  if 48 ≤ c.toNat ∧ c.toNat ≤ 57 then c.toNat - 48
  else if 97 ≤ c.toNat ∧ c.toNat ≤ 102 then c.toNat - 87
  else if 65 ≤ c.toNat ∧ c.toNat ≤ 70 then c.toNat - 55
  else 0

/-- Big-endian hex string to integer (`parseInt(s, 16)` and
`BigInt('0x' + s)` on all-hex input). -/
def hexToNat (l : List Char) : Nat := l.foldl (fun acc c => 16 * acc + hexVal c) 0

/-- The distinct `ValidationError`s thrown by `parseSignature`. -/
inductive SigError
  | notHex
  | badLength
  | uncompressed
  | invalidRecovery (v : Nat)
  | rOutOfRange
  | sOutOfRange
  | nonCanonical
  deriving Repr, DecidableEq

/-- The parsed signature `{v, r, s, recoveryParam}`. -/
structure ParsedSig where
  v : Nat
  r : Nat
  s : Nat
  recoveryParam : Nat
  deriving Repr, DecidableEq

/-- The secp256k1 group order `n`. -/
def curveOrder : Nat :=
  0xFFFFFFFFFFFFFFFFFFFFFFFFFFFFFFFEBAAEDCE6AF48A03BBFD25E8CD0364141

/-- Remove the `0x` prefix if present. -/
def stripHexPrefix (l : List Char) : List Char :=
  if "0x".data.isPrefixOf l then l.drop 2 else l

/-- The `r`/`s` range and low-S checks shared by both accepted `v`
families. -/
def checkRS (v k r s : Nat) : Except SigError ParsedSig :=
  if r = 0 ∨ curveOrder ≤ r then .error .rOutOfRange
  else if s = 0 ∨ curveOrder ≤ s then .error .sOutOfRange
  else if curveOrder / 2 < s then .error .nonCanonical
  else .ok ⟨v, r, s, k⟩

/-- `SignatureService.parseSignature`: strip `0x`, require nonempty
all-hex, require 130 characters, map `v` to a recovery index (the segwit
family `39..42` is tested first, then the standard family `31..34`, the
uncompressed family `27..30` is rejected, anything else is an invalid
recovery parameter), then validate `r`, `s` and low-S. -/
def parseSignature (signatureHex : String) : Except SigError ParsedSig :=
  let cleanSig := stripHexPrefix signatureHex.data
  if ¬ (cleanSig ≠ [] ∧ cleanSig.all isHexChar) then .error .notHex
  else if cleanSig.length ≠ 130 then .error .badLength
  else
    let v := hexToNat (cleanSig.take 2)
    let r := hexToNat ((cleanSig.drop 2).take 64)
    let s := hexToNat (cleanSig.drop 66)
    if 39 ≤ v ∧ v ≤ 42 then checkRS v (v - 39) r s
    else if 31 ≤ v ∧ v ≤ 34 then checkRS v (v - 31) r s
    else if 27 ≤ v ∧ v ≤ 30 then .error .uncompressed
    else .error (.invalidRecovery v)

/-! ## The balance store (`BalanceRepository` over the SQLite schema)

Tables are lists of records; a prepared statement is a pure function
`DB → result × DB`. `datetime('now')` is the abstract tick `DB.now`.
`COLLATE NOCASE` on queries is ASCII case folding; the `l1_address`
primary key itself uses SQLite's default BINARY collation, so key
collisions are exact-string collisions. -/

/-- A row of `balances`. -/
structure BalanceRow where
  l1_address : String
  initial_amount : Nat
  spent : Nat
  unicity_id : Option String
  mint_tx_id : Option String
  minted_at : Option Nat
  deriving Repr, DecidableEq

/-- A row of `mint_requests`. -/
structure MintRequestRow where
  id : Nat
  l1_address : String
  unicity_id : String
  amount : Int
  signature : String
  status : String
  error_message : Option String
  faucet_response : Option String
  deriving Repr, DecidableEq

/-- The persistent store. -/
structure DB where
  balances : List BalanceRow
  mint_requests : List MintRequestRow
  nextId : Nat
  now : Nat
  deriving Repr, DecidableEq

/-- `COLLATE NOCASE` string equality. -/
def addrEq (a b : String) : Bool := lowerChars a.data == lowerChars b.data

/-- `BalanceRepository.findByAddress`:
`SELECT * FROM balances WHERE l1_address = ? COLLATE NOCASE`. -/
def findByAddress (db : DB) (addr : String) : Option BalanceRow :=
  db.balances.find? (fun r => addrEq r.l1_address addr)

/-- The row filter of the `markAsSpent` statement's `WHERE` clause:
`l1_address = ? COLLATE NOCASE AND spent = 0`. -/
def markHit (addr : String) (r : BalanceRow) : Bool :=
  addrEq r.l1_address addr && r.spent == 0

/-- The column assignments of the `markAsSpent` statement's `SET` clause. -/
def markUpdate (uid txid : String) (now : Nat) (r : BalanceRow) : BalanceRow :=
  { r with spent := 1, unicity_id := some uid, mint_tx_id := some txid,
           minted_at := some now }

/-- The `markAsSpent` prepared statement: `UPDATE balances SET spent = 1,
unicity_id = ?, mint_tx_id = ?, minted_at = datetime('now') WHERE
l1_address = ? COLLATE NOCASE AND spent = 0`; returns the changed-row
count together with the updated table. -/
def runMarkAsSpent (db : DB) (uid txid addr : String) : Nat × DB :=
  (db.balances.countP (markHit addr),
   { db with balances := db.balances.map (fun r =>
      if markHit addr r then markUpdate uid txid db.now r else r) })

/-- `BalanceRepository.markAsSpent`: run the statement; report success iff
exactly one row changed. -/
def markAsSpent (db : DB) (addr uid txid : String) : Bool × DB :=
  let cd := runMarkAsSpent db uid txid addr
  (cd.1 == 1, cd.2)

/-- The error tags of `atomicMarkAsSpent`. -/
inductive ConsumeError
  | not_found
  | already_minted
  | race_condition
  deriving Repr, DecidableEq

/-- The result shape of `atomicMarkAsSpent`. -/
structure ConsumeResult where
  success : Bool
  error : Option ConsumeError
  record : Option BalanceRow
  deriving Repr, DecidableEq

/-- `BalanceRepository.atomicMarkAsSpent`: one immediate (serialized)
transaction that re-reads the row, fails on absence or an already spent
row, then runs the conditional update, failing unless exactly one row
changed. A non-throwing failure return still commits, so the `race` branch
keeps the updated table. -/
def atomicMarkAsSpent (db : DB) (addr uid txid : String) : ConsumeResult × DB :=
  match findByAddress db addr with
  | none => (⟨false, some .not_found, none⟩, db)
  | some record =>
    if record.spent = 1 then (⟨false, some .already_minted, some record⟩, db)
    else
      let cd := runMarkAsSpent db uid txid addr
      if cd.1 ≠ 1 then (⟨false, some .race_condition, some record⟩, cd.2)
      else (⟨true, none, some record⟩, cd.2)

/-- `BalanceRepository.insertBalance`: `INSERT INTO balances (l1_address,
initial_amount, spent, ...) VALUES (?, ?, 0, ...)`; a primary-key
collision throws and leaves the table unchanged. -/
def insertBalance (db : DB) (addr : String) (amount : Nat) : Except String DB :=
  if db.balances.any (fun r => r.l1_address == addr) then
    .error "already exists in snapshot"
  else .ok { db with balances := db.balances ++ [⟨addr, amount, 0, none, none, none⟩] }

/-- The loop inside `insertBalancesBatch`'s transaction. -/
def insertBatchGo : DB → List (String × Nat) → Except String DB
  | db, [] => .ok db
  | db, (a, n) :: rest =>
    match insertBalance db a n with
    | .error e => .error e
    | .ok db' => insertBatchGo db' rest

/-- `BalanceRepository.insertBalancesBatch`: all-or-nothing — the
enclosing transaction rolls back on the first key collision. -/
def insertBalancesBatch (db : DB) (items : List (String × Nat)) : DB :=
  match insertBatchGo db items with
  | .ok d => d
  | .error _ => db

/-- `BalanceRepository.logMintRequest`: insert a `status='pending'` row
and return its id. -/
def logMintRequest (db : DB) (addr uid : String) (amount : Int) (sig : String) :
    Nat × DB :=
  (db.nextId,
   { db with
      mint_requests := db.mint_requests ++
        [⟨db.nextId, addr, uid, amount, sig, "pending", none, none⟩],
      nextId := db.nextId + 1 })

/-- `BalanceRepository.updateMintRequest`: `UPDATE mint_requests SET
status = ?, error_message = ?, faucet_response = ?, processed_at = ...
WHERE id = ?`. -/
def updateMintRequest (db : DB) (id : Nat) (status : String)
    (errorMessage faucetResponse : Option String) : DB :=
  { db with mint_requests := db.mint_requests.map (fun r =>
      if r.id = id then
        { r with status := status, error_message := errorMessage,
                 faucet_response := faucetResponse }
      else r) }

/-- Every write operation the repository exposes, for store-wide
invariants. -/
inductive StoreOp
  | insert (addr : String) (amount : Nat)
  | insertBatch (items : List (String × Nat))
  | mark (addr uid txid : String)
  | atomicMark (addr uid txid : String)
  | logReq (addr uid : String) (amount : Int) (sig : String)
  | updateReq (id : Nat) (status : String) (err resp : Option String)
  deriving Repr, DecidableEq

/-- Run one store operation, discarding its result value (a thrown insert
collision leaves the table unchanged). -/
def applyOp (db : DB) : StoreOp → DB
  | .insert a n =>
    match insertBalance db a n with
    | .ok d => d
    | .error _ => db
  | .insertBatch items => insertBalancesBatch db items
  | .mark a u t => (markAsSpent db a u t).2
  | .atomicMark a u t => (atomicMarkAsSpent db a u t).2
  | .logReq a u n s => (logMintRequest db a u n s).2
  | .updateReq i st e r => updateMintRequest db i st e r

/-- Well-formedness: no two balance rows share a `NOCASE`-equal address
(the snapshot builder inserts each aggregated address once). -/
def WF (db : DB) : Prop :=
  db.balances.Pairwise
    (fun a b => lowerChars a.l1_address.data ≠ lowerChars b.l1_address.data)

/-- A spent row stays spent: the flag never returns to 0. -/
def spentPreserved (db db' : DB) : Prop :=
  ∀ r ∈ db.balances, r.spent = 1 →
    ∃ r' ∈ db'.balances, r'.l1_address = r.l1_address ∧ r'.spent = 1

/-- A sequence of consume attempts against one address: the serialized
interleaving of concurrent `atomicMarkAsSpent` transactions. -/
def runConsumes (db : DB) (addr : String) (calls : List (String × String)) :
    List ConsumeResult × DB :=
  calls.foldl
    (fun st c =>
      let rd := atomicMarkAsSpent st.2 addr c.1 c.2
      (st.1 ++ [rd.1], rd.2))
    ([], db)

/-! ## The claim coordinator (`BalanceService.processMintRequest`) -/

/-- The `AppError` subclasses thrown by the pipeline. -/
inductive AppErr
  | validation (msg : String)
  | notFound (msg : String)
  | alreadyMinted (msg : String)
  | signature (msg : String)
  | faucet (msg : String)
  deriving Repr, DecidableEq

/-- The HTTP status attached to each error class (400, 404, 409, 400,
502). -/
def AppErr.statusCode : AppErr → Nat
  | .validation _ => 400
  | .notFound _ => 404
  | .alreadyMinted _ => 409
  | .signature _ => 400
  | .faucet _ => 502

/-- The `err.message` used when finalizing the claim log. -/
def AppErr.message : AppErr → String
  | .validation m => m
  | .notFound m => m
  | .alreadyMinted m => m
  | .signature m => m
  | .faucet m => m

/-- What the upstream faucet answered, when it answered at all. -/
structure UpstreamResponse where
  statusCode : Nat
  bodyError : Option String
  bodyMessage : Option String
  dataRequestId : Option String
  topTxId : Option String
  bodyRaw : String
  deriving Repr, DecidableEq

/-- `mintToken`'s successful result. -/
structure MintOutcome where
  txId : String
  data : String
  deriving Repr, DecidableEq

/-- `FaucetProxyService.mintToken`: `none` models a timeout or connection
error; a non-200 status raises `FaucetError`; on 200 the tx id is
`data.requestId`, else the top-level `txId`, else `"unknown"`. -/
def mintToken (resp : Option UpstreamResponse) : Except AppErr MintOutcome :=
  match resp with
  | none => .error (.faucet "Failed to contact upstream faucet")
  | some r =>
    if r.statusCode ≠ 200 then
      .error (.faucet ("Upstream faucet error: "
        ++ r.bodyError.getD (r.bodyMessage.getD "Unknown upstream error")))
    else .ok ⟨r.dataRequestId.getD (r.topTxId.getD "unknown"), r.bodyRaw⟩

/-- The `Amount mismatch` error text of step 3. -/
def amountMismatchMsg (requested : Int) (available : Nat) : String :=
  "Amount mismatch: must mint full balance. Requested " ++ toString requested
    ++ ", available " ++ toString (available : Int)

/-- Audit trail of the store and service calls the pipeline makes, in
order. -/
inductive Event
  | logReq (id : Nat)
  | updateReq (id : Nat) (status : String)
  | find (addr : String)
  | verify (addr : String)
  | reserve (addr : String)
  | relay (uid : String)
  | finalize (addr : String)
  deriving Repr, DecidableEq

/-- The JSON payload of a successful claim. Coin amounts
(`Number(x) / Number(SATOSHIS_PER_COIN)`) are modelled in exact rational
arithmetic. -/
structure MintSuccess where
  l1_addr : String
  unicityId : String
  amount : ℚ
  amountInSmallUnits : Int
  txId : String
  message : String
  deriving Repr, DecidableEq

/-- Result, final store and audit trail of one pipeline run. -/
structure PipelineOut where
  result : Except AppErr MintSuccess
  db : DB
  events : List Event
  deriving Repr

/-- The `try` block of `processMintRequest` (steps 1-8), with the
signature verifier's verdict (`sigOk`) and the upstream response as
oracles. -/
def tryBody (db1 : DB) (requestId : Nat) (l1Address unicityId : String)
    (amountBigInt : Int) (sigOk : Bool) (upstream : Option UpstreamResponse) :
    Except AppErr MintSuccess × DB × List Event :=
  match findByAddress db1 l1Address with
  | none =>
    (.error (.notFound "Address not found in snapshot"), db1, [.find l1Address])
  | some record =>
    if record.spent = 1 then
      (.error (.alreadyMinted ("Address " ++ l1Address
        ++ " has already been minted to " ++ record.unicity_id.getD "null")),
       db1, [.find l1Address])
    else if amountBigInt ≠ (record.initial_amount : Int) then
      (.error (.validation (amountMismatchMsg amountBigInt record.initial_amount)),
       db1, [.find l1Address])
    else if ¬ sigOk then
      (.error (.signature "Signature verification failed"), db1,
       [.find l1Address, .verify l1Address])
    else
      let rd := atomicMarkAsSpent db1 l1Address unicityId "pending"
      if rd.1.success = false then
        ((if rd.1.error = some .already_minted then
            .error (.alreadyMinted "Address was minted by another request")
          else .error (.validation "Failed to process")),
         rd.2, [.find l1Address, .verify l1Address, .reserve l1Address])
      else
        match mintToken upstream with
        | .error e =>
          (.error e, rd.2,
           [.find l1Address, .verify l1Address, .reserve l1Address,
            .relay unicityId])
        | .ok m =>
          let db3 := (markAsSpent rd.2 l1Address unicityId m.txId).2
          let db4 := updateMintRequest db3 requestId "success" none (some m.data)
          (.ok ⟨l1Address, unicityId, (amountBigInt : ℚ) / 100000000,
             amountBigInt, m.txId, "Token minted successfully"⟩,
           db4,
           [.find l1Address, .verify l1Address, .reserve l1Address,
            .relay unicityId, .finalize l1Address, .updateReq requestId "success"])

/-- `BalanceService.processMintRequest`: destination and amount
validation, the ingress log row, the `try` block, and the `catch` that
finalizes the log row as failed before rethrowing. -/
def processMintRequest (db : DB) (l1Address unicityId : String) (amount : Int)
    (signature : String) (sigOk : Bool) (upstream : Option UpstreamResponse) :
    PipelineOut :=
  if unicityId.length < 1 then
    ⟨.error (.validation "Invalid unicityId"), db, []⟩
  else if amount ≤ 0 then
    ⟨.error (.validation "Amount must be positive"), db, []⟩
  else
    let rq := logMintRequest db l1Address unicityId amount signature
    match tryBody rq.2 rq.1 l1Address unicityId amount sigOk upstream with
    | (.ok payload, db2, evs) =>
      ⟨.ok payload, db2, .logReq rq.1 :: evs⟩
    | (.error e, db2, evs) =>
      ⟨.error e, updateMintRequest db2 rq.1 "failed" (some e.message) none,
       .logReq rq.1 :: (evs ++ [.updateReq rq.1 "failed"])⟩

/-! ## `BalanceService.getBalance` and its route (C10) -/

/-- The balance payload (`TOKEN_CONFIG` spread fields omitted; coin
amounts in exact rationals). -/
structure BalanceInfo where
  success : Bool
  l1_addr : String
  unicityId : Option String
  amount : ℚ
  amountInSmallUnits : Nat
  initialAmount : ℚ
  initialAmountInSmallUnits : Nat
  spent : Bool
  inSnapshot : Bool
  mintedAt : Option Nat
  deriving Repr, DecidableEq

/-- `BalanceService.getBalance`: an address absent from the snapshot is a
zero balance, not an error. -/
def getBalance (db : DB) (l1Address : String) : BalanceInfo :=
  match findByAddress db l1Address with
  | none => ⟨true, l1Address, none, 0, 0, 0, 0, false, false, none⟩
  | some record =>
    let spent := record.spent == 1
    let currentAmount := if spent then 0 else record.initial_amount
    ⟨true, record.l1_address, record.unicity_id,
     (currentAmount : ℚ) / 100000000, currentAmount,
     (record.initial_amount : ℚ) / 100000000, record.initial_amount,
     spent, true, record.minted_at⟩

/-- The `GET /api/v1/faucet/balance/:l1_addr` handler: 400 with no payload
on an invalid address, otherwise HTTP 200 with the balance of the
normalized address. -/
def balanceHandler (db : DB) (l1_addr : String) : Nat × Option BalanceInfo :=
  let validation := validateAddress l1_addr
  if validation.valid then (200, some (getBalance db (validation.normalized.getD "")))
  else (400, none)

/-! ## The snapshot builder (`cli/snapshot.js`, C8) -/

/-- One unspent output as reported by `scantxoutset`: confirmation height,
the address of its script (when it has one), and its value in coin units.
The value is an exact rational; IEEE-754 artifacts of the JavaScript
number are not modelled. -/
structure Utxo where
  height : Nat
  address : Option String
  amount : ℚ
  deriving Repr, DecidableEq

/-- `Math.round(value * 1e8)`: satoshis of a coin-unit value. -/
def toSats (q : ℚ) : Int := ⌊q * 100000000 + 1 / 2⌋

/-- `Map.get` over the insertion-ordered association list. -/
def mapGet (m : List (String × Int)) (k : String) : Option Int :=
  (m.find? (fun p => p.1 == k)).map (fun p => p.2)

/-- `Map.set`: update in place, or append a new key. -/
def mapSet (m : List (String × Int)) (k : String) (v : Int) : List (String × Int) :=
  if m.any (fun p => p.1 == k) then
    m.map (fun p => if p.1 == k then (p.1, v) else p)
  else m ++ [(k, v)]

/-- One step of `scanUtxoSet`'s aggregation loop: skip outputs confirmed
above the snapshot height, skip missing addresses and those not starting
with `alpha1`, otherwise add `round(value * 1e8)` to the address's
running sum. -/
def scanStep (block : Nat) (m : List (String × Int)) (u : Utxo) :
    List (String × Int) :=
  if block < u.height then m
  else
    match u.address with
    | none => m
    | some a =>
      if "alpha1".data.isPrefixOf a.data then
        mapSet m a ((mapGet m a).getD 0 + toSats u.amount)
      else m

/-- The aggregation of `scanUtxoSet`: fold the loop over the UTXO set. -/
def scanAggregate (block : Nat) (utxos : List Utxo) : List (String × Int) :=
  utxos.foldl (scanStep block) []

/-- The `createDatabase` insert loop: rows accumulate in batches of
`batchSize`, each batch inserted in order, a trailing partial batch
last. Returns the `(l1_address, initial_amount)` rows inserted, in
order. -/
def createDbRows (balances : List (String × Int)) (batchSize : Nat) :
    List (String × Int) :=
  let fin := balances.foldl
    (fun (st : List (String × Int) × List (String × Int)) p =>
      let batch := st.2 ++ [p]
      if batchSize ≤ batch.length then (st.1 ++ batch, []) else (st.1, batch))
    ([], [])
  fin.1 ++ fin.2

/-- A UTXO qualifies for an address at the snapshot height: confirmed at
or below the height, carrying exactly that address, which is of the
`alpha1` family. -/
def qualifies (block : Nat) (addr : String) (u : Utxo) : Bool :=
  decide (u.height ≤ block) &&
    match u.address with
    | some a => a == addr && "alpha1".data.isPrefixOf a.data
    | none => false

/-- The satoshi sum of the qualifying outputs of one address. -/
def satSum (block : Nat) (addr : String) (utxos : List Utxo) : Int :=
  (utxos.filter (qualifies block addr)).foldl (fun acc u => acc + toSats u.amount) 0

/-- Is the event an ingress-log insert? -/
def isLogEvent : Event → Bool
  | .logReq _ => true
  | _ => false

/-- Is the event a claim-log finalization? -/
def isUpdateEvent : Event → Bool
  | .updateReq _ _ => true
  | _ => false

/-- Keys of the running aggregate are pairwise distinct. -/
def KeysDistinct (m : List (String × Int)) : Prop :=
  m.Pairwise (fun a b => a.1 ≠ b.1)

/-! ## Theorems -/

theorem char_toNat_ofNat {n : Nat} (h : n.isValidChar) : (Char.ofNat n).toNat = n := by
  unfold Char.ofNat
  rw [dif_pos h]
  rfl

theorem jsLower_idem (c : Char) : jsLower (jsLower c) = jsLower c := by
  unfold jsLower
  split
  · next h =>
    have hv : (c.toNat + 32).isValidChar := by
      left
      show c.toNat + 32 < 0xd800
      omega
    rw [char_toNat_ofNat hv]
    have hno : ¬ (65 ≤ c.toNat + 32 ∧ c.toNat + 32 ≤ 90) := by omega
    rw [if_neg hno]
  · rfl

theorem lowerChars_idem (s : List Char) : lowerChars (lowerChars s) = lowerChars s := by
  simp [lowerChars, Function.comp, jsLower_idem]

theorem takeWhile_append_of_all {α : Type} {p : α → Bool} {l1 l2 : List α}
    (h : l1.all p = true) : (l1 ++ l2).takeWhile p = l1 ++ l2.takeWhile p := by
  induction l1 with
  | nil => simp
  | cons a t ih =>
    simp only [List.all_cons, Bool.and_eq_true] at h
    simp [List.takeWhile_cons, h.1, ih h.2]

theorem dropWhile_append_of_all {α : Type} {p : α → Bool} {l1 l2 : List α}
    (h : l1.all p = true) : (l1 ++ l2).dropWhile p = l2.dropWhile p := by
  induction l1 with
  | nil => simp
  | cons a t ih =>
    simp only [List.all_cons, Bool.and_eq_true] at h
    simp [List.dropWhile_cons, h.1, ih h.2]

theorem ne_one_of_inCharset {c : Char} (h : inCharset c = true) : c ≠ '1' := by
  intro hc
  subst hc
  revert h
  decide

/-- The regex `^[a-z]+1[charset]+$` on `"alpha1" ++ rest`: since the data
before the separator is the literal `alpha`, the regex reduces to `rest`
being a nonempty run of alphabet characters. -/
theorem matchesValidChars_alpha (rest : List Char) :
    matchesValidChars ("alpha1".data ++ rest) =
      (!rest.isEmpty && rest.all inCharset) := by
  have h : ("alpha1".data ++ rest) = 'a' :: 'l' :: 'p' :: 'h' :: 'a' :: '1' :: rest := rfl
  rw [matchesValidChars, h]
  simp [List.takeWhile_cons, List.dropWhile_cons, isLowerAz]

/-- Splitting `"alpha1" ++ rest` at the last `'1'` when `rest` stays inside
the bech32 alphabet (which has no `'1'`): the separator found is the one
after `alpha`. -/
theorem lastSplit1_alpha (rest : List Char) (h : rest.all inCharset = true) :
    lastSplit1 ("alpha1".data ++ rest) = some ("alpha".data, rest) := by
  have hne : rest.reverse.all (fun c => c ≠ '1') = true := by
    rw [List.all_eq_true]
    intro c hc
    simp only [decide_eq_true_eq]
    exact ne_one_of_inCharset (List.all_eq_true.mp h c (List.mem_reverse.mp hc))
  have hrev : ("alpha1".data ++ rest).reverse
      = rest.reverse ++ ('1' :: 'a' :: 'h' :: 'p' :: 'l' :: 'a' :: []) := by
    rw [List.reverse_append]
    rfl
  rw [lastSplit1, hrev]
  rw [dropWhile_append_of_all hne, takeWhile_append_of_all hne]
  simp [List.dropWhile_cons, List.takeWhile_cons]

/-- The code's check chain and the specification's conjunction agree on
every lowercased candidate. The two sides differ syntactically in the
character-class check (a full-string regex against "alphabet after the
separator") and in the order of the post-decode checks; both reduce to the
same conditions. -/
theorem validateCore_valid_eq_spec (low : List Char) :
    (validateCore low).valid = specCore low := by
  rw [validateCore, specCore,
    show (HRP ++ ['1'] : List Char) = "alpha1".data from rfl,
    show HRP = "alpha".data from rfl,
    show WITNESS_VERSION = 0 from rfl]
  by_cases hp : ("alpha1".data.isPrefixOf low) = true
  · rw [if_neg (not_not_intro hp), hp, Bool.true_and]
    obtain ⟨rest, rfl⟩ := List.isPrefixOf_iff_prefix.mp hp
    rw [List.drop_left' (show ("alpha1".data : List Char).length = 6 from rfl)]
    by_cases hlen : ("alpha1".data ++ rest).length < 14 ∨ 74 < ("alpha1".data ++ rest).length
    · rw [if_pos hlen]
      rcases hlen with h | h
      · rw [decide_eq_false (Nat.not_le.mpr h), Bool.false_and, Bool.false_and]
      · rw [decide_eq_false (Nat.not_le.mpr h), Bool.and_false, Bool.false_and]
    · rw [if_neg hlen]
      have h14 : 14 ≤ ("alpha1".data ++ rest).length := by omega
      have h74 : ("alpha1".data ++ rest).length ≤ 74 := by omega
      rw [decide_eq_true h14, decide_eq_true h74, Bool.true_and, Bool.true_and]
      have hrest : rest.isEmpty = false := by
        cases rest with
        | nil => exact absurd h14 (by rw [List.append_nil]; decide)
        | cons a t => rfl
      by_cases hcs : rest.all inCharset = true
      · have hmv : matchesValidChars ("alpha1".data ++ rest) = true := by
          rw [matchesValidChars_alpha, hrest, hcs]
          rfl
        rw [if_neg (not_not_intro hmv), hcs, Bool.true_and]
        cases hdec : bech32Decode ("alpha1".data ++ rest) with
        | error e => rfl
        | ok pw =>
          obtain ⟨pre, words⟩ := pw
          dsimp only
          by_cases hpre : pre = "alpha".data
          · rw [if_neg (not_not_intro hpre), decide_eq_true hpre, Bool.true_and]
            cases hfw : fromWords (words.drop 1) with
            | error e =>
              dsimp only
              rw [Bool.and_false]
            | ok data =>
              dsimp only
              by_cases hwv : words.head? = some 0
              · rw [if_neg (not_not_intro hwv), show (words.head? == some 0) = true from
                  beq_iff_eq.mpr hwv, Bool.true_and]
                by_cases hdl : data.length = 20
                · rw [if_neg (not_not_intro hdl)]
                  exact (beq_iff_eq.mpr hdl).symm
                · rw [if_pos hdl]
                  exact (beq_eq_false_iff_ne.mpr hdl).symm
              · rw [if_pos hwv, beq_eq_false_iff_ne.mpr hwv, Bool.false_and]
          · rw [if_pos hpre, decide_eq_false hpre, Bool.false_and]
      · have hcs' : rest.all inCharset = false := by simpa using hcs
        have hmv : matchesValidChars ("alpha1".data ++ rest) = false := by
          rw [matchesValidChars_alpha, hcs', Bool.and_false]
        have hmv' : ¬ matchesValidChars ("alpha1".data ++ rest) = true := by
          rw [hmv]
          exact Bool.false_ne_true
        rw [if_pos hmv', hcs', Bool.false_and]
  · rw [if_pos hp]
    have hpf : ("alpha1".data.isPrefixOf low) = false := Bool.eq_false_iff.mpr hp
    rw [hpf, Bool.false_and]

/-- When validation succeeds, the whole result is the success record
carrying the lowercased input as the normalized form. -/
theorem validateCore_eq_of_valid (low : List Char)
    (h : (validateCore low).valid = true) :
    validateCore low = ⟨true, none, some ⟨low⟩⟩ := by
  revert h
  rw [validateCore]
  repeat' split
  all_goals intro h
  all_goals first | rfl | simp at h

/-- C6: `validateAddress(addr)` returns valid with normalized equal to the
lowercased input if and only if the lowercased form starts with `alpha1`,
has length in [14, 74], contains only bech32-alphabet characters after the
separator, bech32-decodes with a valid checksum and HRP `alpha`, has first
5-bit word 0, and remaining 5-bit words decoding to exactly 20 bytes; a
mixed-case input is valid iff its lowercased form is. -/
theorem c6_validateAddress_spec (a : String) :
    ((validateAddress a).valid = true ↔ addressSpecOk a = true) ∧
    ((validateAddress a).valid = true →
      (validateAddress a).normalized = some (lowerStr a)) ∧
    validateAddress (lowerStr a) = validateAddress a := by
  refine ⟨?_, ?_, ?_⟩
  · rw [validateAddress, addressSpecOk, validateCore_valid_eq_spec]
  · intro h
    rw [validateAddress] at h ⊢
    rw [validateCore_eq_of_valid _ h]
    rfl
  · show validateCore (lowerChars (lowerStr a).data) = validateCore (lowerChars a.data)
    rw [show (lowerStr a).data = lowerChars a.data from rfl, lowerChars_idem]

set_option maxRecDepth 100000 in
/-- C6 witness: a concrete address accepted by the validator, with its
normalized form. -/
theorem c6_validateAddress_spec_witness :
    (validateAddress "alpha1qqqqqqqqqqqqqqqqqqqqqqqqqqqqqqqqq8r5x3m").valid = true ∧
    (validateAddress "alpha1qqqqqqqqqqqqqqqqqqqqqqqqqqqqqqqqq8r5x3m").normalized
      = some (lowerStr "alpha1qqqqqqqqqqqqqqqqqqqqqqqqqqqqqqqqq8r5x3m") :=
  ⟨by decide, (c6_validateAddress_spec _).2.1 (by decide)⟩

theorem land255 (n : Nat) : n &&& 255 = n % 256 := by
  have h := Nat.and_pow_two_sub_one_eq_mod n 8
  norm_num at h
  exact h

/-- The code's `_encodeVarInt` and the specification's CompactSize agree
on every length. -/
theorem encodeVarInt_eq_compactSize (n : Nat) : encodeVarInt n = compactSize n := by
  rw [encodeVarInt, compactSize]
  simp only [land255, Nat.shiftRight_eq_div_pow]
  norm_num

/-- An encoded length exists exactly below `2^32`. -/
theorem encodeVarInt_ok_iff (n : Nat) :
    (∃ b, encodeVarInt n = .ok b) ↔ n < 0x100000000 := by
  rw [encodeVarInt]
  split_ifs with h1 h2 h3
  · exact ⟨fun _ => by omega, fun _ => ⟨_, rfl⟩⟩
  · exact ⟨fun _ => by omega, fun _ => ⟨_, rfl⟩⟩
  · exact ⟨fun _ => h3, fun _ => ⟨_, rfl⟩⟩
  · refine ⟨fun hb => ?_, fun hlt => absurd hlt h3⟩
    obtain ⟨b, hb⟩ := hb
    cases hb

/-- C7: `createMessageHash(message)` equals
`SHA256(SHA256(varint(|prefix|) ++ prefix ++ varint(|message|) ++ message))`
with `prefix` the ASCII bytes of `"Alpha Signed Message:\n"` and `varint`
the CompactSize encoding, erroring exactly for messages of `2^32` bytes or
more; the digest is a deterministic function of the message bytes. -/
theorem c7_createMessageHash_spec (message : Bytes) :
    createMessageHash message = specMessageDigest message ∧
    ((∃ d, createMessageHash message = .ok d) ↔ message.length < 2 ^ 32) := by
  constructor
  · rw [createMessageHash, specMessageDigest, encodeVarInt_eq_compactSize,
      encodeVarInt_eq_compactSize]
  · rw [createMessageHash,
      show encodeVarInt MESSAGE_PREFIX_BYTES.length = .ok [22] from rfl]
    cases hm : encodeVarInt message.length with
    | error e =>
      have hlt : ¬ message.length < 0x100000000 := by
        intro hlt
        obtain ⟨b, hb⟩ := (encodeVarInt_ok_iff _).mpr hlt
        rw [hm] at hb
        cases hb
      exact ⟨fun hd => (by obtain ⟨d, hd⟩ := hd; cases hd), fun hlt' => absurd hlt' hlt⟩
    | ok m =>
      have hlt : message.length < 0x100000000 := (encodeVarInt_ok_iff _).mp ⟨m, hm⟩
      exact ⟨fun _ => hlt, fun _ => ⟨_, rfl⟩⟩

/-- C4: `parseSignature` succeeds exactly on inputs that, after stripping
an optional `0x` prefix, are 130 hex characters whose first byte `v` lies
in 31-34 or 39-42 and whose big-endian `r` and `s` satisfy
`1 ≤ r,s ≤ n-1` and `s ≤ n/2` for the secp256k1 order `n`; on success the
recovery index is `v-31` resp. `v-39`; `v` in 27-30 is rejected as
uncompressed, every other out-of-range `v` as an invalid recovery
parameter, and those two errors are distinct. -/
theorem c4_parseSignature_spec (sig : String) :
    ((∃ out, parseSignature sig = .ok out) ↔
      ((stripHexPrefix sig.data).all isHexChar = true ∧
       (stripHexPrefix sig.data).length = 130 ∧
       ((31 ≤ hexToNat ((stripHexPrefix sig.data).take 2) ∧
         hexToNat ((stripHexPrefix sig.data).take 2) ≤ 34) ∨
        (39 ≤ hexToNat ((stripHexPrefix sig.data).take 2) ∧
         hexToNat ((stripHexPrefix sig.data).take 2) ≤ 42)) ∧
       1 ≤ hexToNat (((stripHexPrefix sig.data).drop 2).take 64) ∧
       hexToNat (((stripHexPrefix sig.data).drop 2).take 64) ≤ curveOrder - 1 ∧
       1 ≤ hexToNat ((stripHexPrefix sig.data).drop 66) ∧
       hexToNat ((stripHexPrefix sig.data).drop 66) ≤ curveOrder - 1 ∧
       hexToNat ((stripHexPrefix sig.data).drop 66) ≤ curveOrder / 2)) ∧
    (∀ out, parseSignature sig = .ok out →
      out.v = hexToNat ((stripHexPrefix sig.data).take 2) ∧
      out.r = hexToNat (((stripHexPrefix sig.data).drop 2).take 64) ∧
      out.s = hexToNat ((stripHexPrefix sig.data).drop 66) ∧
      out.recoveryParam =
        (if 39 ≤ hexToNat ((stripHexPrefix sig.data).take 2)
         then hexToNat ((stripHexPrefix sig.data).take 2) - 39
         else hexToNat ((stripHexPrefix sig.data).take 2) - 31)) ∧
    ((stripHexPrefix sig.data).all isHexChar = true →
      (stripHexPrefix sig.data).length = 130 →
      27 ≤ hexToNat ((stripHexPrefix sig.data).take 2) →
      hexToNat ((stripHexPrefix sig.data).take 2) ≤ 30 →
      parseSignature sig = .error .uncompressed) ∧
    ((stripHexPrefix sig.data).all isHexChar = true →
      (stripHexPrefix sig.data).length = 130 →
      ¬ (27 ≤ hexToNat ((stripHexPrefix sig.data).take 2) ∧
         hexToNat ((stripHexPrefix sig.data).take 2) ≤ 34) →
      ¬ (39 ≤ hexToNat ((stripHexPrefix sig.data).take 2) ∧
         hexToNat ((stripHexPrefix sig.data).take 2) ≤ 42) →
      parseSignature sig
        = .error (.invalidRecovery (hexToNat ((stripHexPrefix sig.data).take 2)))) ∧
    (∀ w, SigError.uncompressed ≠ SigError.invalidRecovery w) := by
  have hord : 2 ≤ curveOrder := by decide
  simp only [parseSignature]
  generalize stripHexPrefix sig.data = clean
  by_cases hne : clean ≠ [] ∧ (clean.all isHexChar = true)
  · rw [if_neg (not_not_intro hne)]
    by_cases hlen : clean.length = 130
    · rw [if_neg (not_not_intro hlen)]
      by_cases hv42 : 39 ≤ hexToNat (clean.take 2) ∧ hexToNat (clean.take 2) ≤ 42
      · rw [if_pos hv42, checkRS]
        refine ⟨?_, ?_, ?_, ?_, fun w h => SigError.noConfusion h⟩
        · constructor
          · rintro ⟨o, ho⟩
            split_ifs at ho with h1 h2 h3
            cases ho
            exact ⟨hne.2, hlen, Or.inr hv42, by omega, by omega, by omega,
              by omega, by omega⟩
          · rintro ⟨-, -, -, hr1, hr2, hs1, hs2, hs3⟩
            rw [if_neg (by omega), if_neg (by omega), if_neg (by omega)]
            exact ⟨_, rfl⟩
        · intro out h
          split_ifs at h with h1 h2 h3
          cases h
          exact ⟨rfl, rfl, rfl, (if_pos hv42.1).symm⟩
        · intro _ _ h27 h30
          omega
        · intro _ _ _ h42
          exact absurd hv42 h42
      · rw [if_neg hv42]
        by_cases hv34 : 31 ≤ hexToNat (clean.take 2) ∧ hexToNat (clean.take 2) ≤ 34
        · rw [if_pos hv34, checkRS]
          refine ⟨?_, ?_, ?_, ?_, fun w h => SigError.noConfusion h⟩
          · constructor
            · rintro ⟨o, ho⟩
              split_ifs at ho with h1 h2 h3
              cases ho
              exact ⟨hne.2, hlen, Or.inl hv34, by omega, by omega, by omega,
                by omega, by omega⟩
            · rintro ⟨-, -, -, hr1, hr2, hs1, hs2, hs3⟩
              rw [if_neg (by omega), if_neg (by omega), if_neg (by omega)]
              exact ⟨_, rfl⟩
          · intro out h
            split_ifs at h with h1 h2 h3
            cases h
            refine ⟨rfl, rfl, rfl, ?_⟩
            rw [if_neg (by omega)]
          · intro _ _ h27 h30
            omega
          · intro _ _ h34 _
            exact absurd ⟨by omega, hv34.2⟩ h34
        · by_cases hv30 : 27 ≤ hexToNat (clean.take 2) ∧ hexToNat (clean.take 2) ≤ 30
          · rw [if_neg hv34, if_pos hv30]
            refine ⟨?_, ?_, ?_, ?_, fun w h => SigError.noConfusion h⟩
            · constructor
              · rintro ⟨o, ho⟩
                cases ho
              · rintro ⟨-, -, hv, -⟩
                omega
            · intro out h
              cases h
            · intro _ _ _ _
              rfl
            · intro _ _ h34 _
              exact absurd ⟨by omega, by omega⟩ h34
          · rw [if_neg hv34, if_neg hv30]
            refine ⟨?_, ?_, ?_, ?_, fun w h => SigError.noConfusion h⟩
            · constructor
              · rintro ⟨o, ho⟩
                cases ho
              · rintro ⟨-, -, hv, -⟩
                omega
            · intro out h
              cases h
            · intro _ _ h27 h30
              exact absurd ⟨h27, h30⟩ hv30
            · intro _ _ _ _
              rfl
    · rw [if_pos hlen]
      refine ⟨?_, ?_, ?_, ?_, fun w h => SigError.noConfusion h⟩
      · constructor
        · rintro ⟨o, ho⟩
          cases ho
        · rintro ⟨-, hl, -⟩
          exact absurd hl hlen
      · intro out h
        cases h
      · intro _ hl _ _
        exact absurd hl hlen
      · intro _ hl _ _
        exact absurd hl hlen
  · rw [if_pos hne]
    have hx : clean.all isHexChar = true → clean.length = 130 → False := by
      intro hhex hl
      apply hne
      refine ⟨?_, hhex⟩
      intro hnil
      rw [hnil] at hl
      simp at hl
    refine ⟨?_, ?_, ?_, ?_, fun w h => SigError.noConfusion h⟩
    · constructor
      · rintro ⟨o, ho⟩
        cases ho
      · rintro ⟨hhex, hl, -⟩
        exact absurd (hx hhex hl) id
    · intro out h
      cases h
    · intro hhex hl _ _
      exact absurd (hx hhex hl) id
    · intro hhex hl _ _
      exact absurd (hx hhex hl) id

set_option maxRecDepth 100000 in
/-- C4 witness: a concrete minimal valid signature (`v = 31`, `r = s = 1`)
is accepted, and the same body under `v = 27` is rejected as
uncompressed. -/
theorem c4_parseSignature_spec_witness :
    (∃ out, parseSignature
      "1f00000000000000000000000000000000000000000000000000000000000000010000000000000000000000000000000000000000000000000000000000000001"
      = .ok out) ∧
    parseSignature
      "1b00000000000000000000000000000000000000000000000000000000000000010000000000000000000000000000000000000000000000000000000000000001"
      = .error .uncompressed := by
  refine ⟨(c4_parseSignature_spec _).1.mpr (by decide), ?_⟩
  exact (c4_parseSignature_spec _).2.2.1 (by decide) (by decide) (by decide) (by decide)

/-! ## Store lemmas (C1) -/

theorem find?_map_pres {α : Type} {p : α → Bool} {f : α → α}
    (hf : ∀ r, p (f r) = p r) (l : List α) :
    (l.map f).find? p = (l.find? p).map f := by
  induction l with
  | nil => rfl
  | cons a t ih =>
    simp only [List.map_cons, List.find?_cons]
    rw [hf a]
    cases hp : p a
    · simpa [hp] using ih
    · simp [hp]

theorem markUpdate_l1_address (uid txid : String) (now : Nat) (r : BalanceRow) :
    (markUpdate uid txid now r).l1_address = r.l1_address := rfl

theorem addrEq_eq_true_iff {a b : String} :
    addrEq a b = true ↔ lowerChars a.data = lowerChars b.data := by
  rw [addrEq, beq_iff_eq]

/-- With pairwise `NOCASE`-distinct addresses and a fresh matching row,
the conditional update touches exactly one row. -/
theorem countP_markHit_eq_one {l : List BalanceRow} {addr : String} {r : BalanceRow}
    (hp : l.Pairwise
      (fun a b => lowerChars a.l1_address.data ≠ lowerChars b.l1_address.data))
    (hf : l.find? (fun x => addrEq x.l1_address addr) = some r) (hs : r.spent = 0) :
    l.countP (markHit addr) = 1 := by
  induction l with
  | nil => cases hf
  | cons a t ih =>
    rw [List.pairwise_cons] at hp
    rw [List.find?_cons] at hf
    cases ha : addrEq a.l1_address addr with
    | false =>
      rw [ha] at hf
      dsimp only at hf
      have hm : markHit addr a = false := by
        rw [markHit, ha, Bool.false_and]
      have hneg : ¬ markHit addr a = true := by
        rw [hm]
        exact Bool.false_ne_true
      rw [List.countP_cons_of_neg _ _ hneg]
      exact ih hp.2 hf
    | true =>
      rw [ha] at hf
      dsimp only at hf
      cases hf
      have hm : markHit addr r = true := by
        rw [markHit, ha, Bool.true_and, hs]
        rfl
      rw [List.countP_cons_of_pos _ _ hm]
      have hz : t.countP (markHit addr) = 0 := by
        rw [List.countP_eq_zero]
        intro y hy hmy
        have h1 : addrEq y.l1_address addr = true := by
          rw [markHit, Bool.and_eq_true] at hmy
          exact hmy.1
        have h2 := addrEq_eq_true_iff.mp h1
        have h3 := addrEq_eq_true_iff.mp ha
        exact hp.1 y hy (h3.trans h2.symm)
      omega

/-- The conditional update keeps every address; a subsequent lookup finds
the updated image of the row it found before. -/
theorem findByAddress_runMark (db : DB) (uid txid addr a2 : String) :
    findByAddress (runMarkAsSpent db uid txid addr).2 a2 =
      (findByAddress db a2).map
        (fun r => if markHit addr r then markUpdate uid txid db.now r else r) := by
  rw [findByAddress, runMarkAsSpent]
  exact find?_map_pres (fun r => by cases h : markHit addr r <;> simp [h, markUpdate]) _

theorem WF_runMark {db : DB} (uid txid addr : String) (h : WF db) :
    WF (runMarkAsSpent db uid txid addr).2 := by
  rw [WF, runMarkAsSpent, List.pairwise_map]
  apply h.imp
  intro a b hab
  cases h1 : markHit addr a <;> cases h2 : markHit addr b <;>
    simpa [h1, h2, markUpdate] using hab

/-- A consume attempt against a present, fresh row (under a well-formed
store) succeeds and returns the pre-update row. -/
theorem atomicMarkAsSpent_fresh {db : DB} {addr : String} {r : BalanceRow}
    (uid txid : String) (hwf : WF db)
    (hf : findByAddress db addr = some r) (hs : r.spent = 0) :
    atomicMarkAsSpent db addr uid txid =
      (⟨true, none, some r⟩, (runMarkAsSpent db uid txid addr).2) := by
  rw [atomicMarkAsSpent, hf]
  dsimp only
  rw [if_neg (by omega)]
  have hc : (runMarkAsSpent db uid txid addr).1 = 1 :=
    countP_markHit_eq_one hwf hf hs
  simp only [hc]
  rw [if_neg (by omega)]

/-- A consume attempt against a spent row fails as `already_minted` and
leaves the store untouched. -/
theorem atomicMarkAsSpent_spent {db : DB} {addr : String} {r : BalanceRow}
    (uid txid : String) (hf : findByAddress db addr = some r) (hs : r.spent = 1) :
    atomicMarkAsSpent db addr uid txid = (⟨false, some .already_minted, some r⟩, db) := by
  rw [atomicMarkAsSpent, hf]
  dsimp only
  rw [if_pos hs]

/-- Once the row is spent, any further consume attempts all fail as
`already_minted` and never change the store. -/
theorem runConsumes_stuck {db : DB} {addr : String} {r : BalanceRow}
    (hf : findByAddress db addr = some r) (hs : r.spent = 1)
    (calls : List (String × String)) (acc : List ConsumeResult) :
    calls.foldl
      (fun st c =>
        let rd := atomicMarkAsSpent st.2 addr c.1 c.2
        (st.1 ++ [rd.1], rd.2))
      (acc, db)
    = (acc ++ calls.map (fun _ => ⟨false, some .already_minted, some r⟩), db) := by
  induction calls generalizing acc with
  | nil => simp
  | cons c cs ih =>
    rw [List.foldl_cons]
    simp only [atomicMarkAsSpent_spent c.1 c.2 hf hs]
    rw [ih]
    simp

theorem spentPreserved_refl (db : DB) : spentPreserved db db :=
  fun r hr h => ⟨r, hr, rfl, h⟩

theorem spentPreserved_append (db : DB) (rows : List BalanceRow) :
    spentPreserved db { db with balances := db.balances ++ rows } :=
  fun r hr h => ⟨r, List.mem_append_left _ hr, rfl, h⟩

theorem spentPreserved_runMark (db : DB) (uid txid addr : String) :
    spentPreserved db (runMarkAsSpent db uid txid addr).2 := by
  intro r hr h
  refine ⟨if markHit addr r then markUpdate uid txid db.now r else r,
    List.mem_map_of_mem _ hr, ?_, ?_⟩
  · cases hm : markHit addr r <;> simp [markUpdate]
  · cases hm : markHit addr r <;> simp [markUpdate, h]

theorem insertBatchGo_balances (items : List (String × Nat)) :
    ∀ (db d : DB), insertBatchGo db items = .ok d →
      ∃ t, d.balances = db.balances ++ t := by
  induction items with
  | nil =>
    intro db d h
    cases h
    exact ⟨[], by simp⟩
  | cons p rest ih =>
    obtain ⟨a, n⟩ := p
    intro db d h
    rw [insertBatchGo] at h
    cases hi : insertBalance db a n with
    | error e =>
      rw [hi] at h
      cases h
    | ok db' =>
      rw [hi] at h
      dsimp only at h
      obtain ⟨t, ht⟩ := ih db' d h
      have hb : db'.balances = db.balances ++ [⟨a, n, 0, none, none, none⟩] := by
        rw [insertBalance] at hi
        split at hi
        · cases hi
        · cases hi
          rfl
      exact ⟨[⟨a, n, 0, none, none, none⟩] ++ t, by rw [ht, hb, List.append_assoc]⟩

/-- No write operation of the store ever takes a row's `spent` flag from 1
back to 0. -/
theorem spentPreserved_applyOp (db : DB) (op : StoreOp) :
    spentPreserved db (applyOp db op) := by
  cases op with
  | insert a n =>
    rw [applyOp]
    cases hi : insertBalance db a n with
    | ok d =>
      rw [insertBalance] at hi
      split at hi
      · cases hi
      · cases hi
        exact spentPreserved_append db _
    | error e => exact spentPreserved_refl db
  | insertBatch items =>
    rw [applyOp, insertBalancesBatch]
    cases hb : insertBatchGo db items with
    | ok d =>
      obtain ⟨t, ht⟩ := insertBatchGo_balances items db d hb
      intro r hr h
      exact ⟨r, by rw [ht]; exact List.mem_append_left _ hr, rfl, h⟩
    | error e => exact spentPreserved_refl db
  | mark a u t => exact spentPreserved_runMark db u t a
  | atomicMark a u t =>
    rw [applyOp, atomicMarkAsSpent]
    cases hf : findByAddress db a with
    | none => exact spentPreserved_refl db
    | some record =>
      dsimp only
      by_cases h1 : record.spent = 1
      · rw [if_pos h1]
        exact spentPreserved_refl db
      · rw [if_neg h1]
        by_cases h2 : (runMarkAsSpent db u t a).1 ≠ 1
        · rw [if_pos h2]
          exact spentPreserved_runMark db u t a
        · rw [if_neg h2]
          exact spentPreserved_runMark db u t a
  | logReq a u n s =>
    intro r hr h
    exact ⟨r, hr, rfl, h⟩
  | updateReq i st e rp =>
    intro r hr h
    exact ⟨r, hr, rfl, h⟩

/-- C1: among any serialized set of `atomicMarkAsSpent` calls against the
same address whose row is unspent, exactly the first returns success and
sets `spent = 1`, `unicity_id`, `mint_tx_id` and `minted_at`; every later
call returns an already-minted failure and leaves the store exactly as the
first call left it; and no store operation ever resets `spent` from 1 to
0. -/
theorem c1_consume_at_most_once :
    (∀ (db : DB) (addr : String) (r : BalanceRow) (c : String × String)
        (cs : List (String × String)),
      WF db → findByAddress db addr = some r → r.spent = 0 →
      runConsumes db addr (c :: cs) =
        (⟨true, none, some r⟩ ::
           cs.map (fun _ => ⟨false, some .already_minted,
             some (markUpdate c.1 c.2 db.now r)⟩),
         (runMarkAsSpent db c.1 c.2 addr).2) ∧
      findByAddress (runConsumes db addr (c :: cs)).2 addr =
        some (markUpdate c.1 c.2 db.now r)) ∧
    (∀ (db : DB) (op : StoreOp), spentPreserved db (applyOp db op)) := by
  constructor
  · intro db addr r c cs hwf hf hs
    have hfresh := atomicMarkAsSpent_fresh c.1 c.2 hwf hf hs
    have hhit : markHit addr r = true := by
      rw [markHit, List.find?_some hf, Bool.true_and, hs]
      rfl
    have hfind1 : findByAddress (runMarkAsSpent db c.1 c.2 addr).2 addr =
        some (markUpdate c.1 c.2 db.now r) := by
      rw [findByAddress_runMark, hf]
      simp [hhit]
    have hspent1 : (markUpdate c.1 c.2 db.now r).spent = 1 := rfl
    have hrun : runConsumes db addr (c :: cs) =
        (⟨true, none, some r⟩ ::
           cs.map (fun _ => ⟨false, some .already_minted,
             some (markUpdate c.1 c.2 db.now r)⟩),
         (runMarkAsSpent db c.1 c.2 addr).2) := by
      rw [runConsumes, List.foldl_cons]
      dsimp only
      rw [hfresh]
      rw [runConsumes_stuck hfind1 hspent1]
      simp
    refine ⟨hrun, ?_⟩
    rw [hrun]
    exact hfind1
  · exact spentPreserved_applyOp

/-! ## Pipeline lemmas (C2, C3, C5, C9) -/

theorem string_length_pos {s : String} (h : s ≠ "") : 1 ≤ s.length := by
  cases s with
  | mk l =>
    cases l with
    | nil => exact absurd rfl h
    | cons c t =>
      show 1 ≤ (c :: t).length
      simp

/-- The pipeline output on an amount mismatch, for any verifier verdict
and any upstream behavior. -/
theorem processMintRequest_mismatch (db : DB) (addr uid : String) (amount : Int)
    (sig : String) (r : BalanceRow) (sigOk : Bool)
    (upstream : Option UpstreamResponse)
    (huid : uid ≠ "") (hamt : 0 < amount)
    (hf : findByAddress db addr = some r) (hsp : r.spent ≠ 1)
    (hne : amount ≠ (r.initial_amount : Int)) :
    processMintRequest db addr uid amount sig sigOk upstream =
      ⟨.error (.validation (amountMismatchMsg amount r.initial_amount)),
       updateMintRequest (logMintRequest db addr uid amount sig).2 db.nextId
         "failed" (some (amountMismatchMsg amount r.initial_amount)) none,
       [.logReq db.nextId, .find addr, .updateReq db.nextId "failed"]⟩ := by
  have hu : ¬ uid.length < 1 := by
    have := string_length_pos huid
    omega
  have ha : ¬ amount ≤ 0 := by omega
  have hf1 : findByAddress (logMintRequest db addr uid amount sig).2 addr = some r := hf
  rw [processMintRequest, if_neg hu, if_neg ha]
  dsimp only
  rw [tryBody, hf1]
  dsimp only
  rw [if_neg hsp, if_pos hne]
  rfl

/-- C5: with a present, unspent row, an amount differing from the row's
`initial_amount` (compared as satoshi integers) fails with the
`AmountMismatch` validation error (HTTP 400) before signature verification
and before reservation: the balance table is unchanged, no verify or
reserve step runs, and the outcome is independent of the verifier's
verdict and of the upstream. -/
theorem c5_amount_mismatch (db : DB) (addr uid : String) (amount : Int)
    (sig : String) (r : BalanceRow) (sigOk : Bool)
    (upstream : Option UpstreamResponse)
    (huid : uid ≠ "") (hamt : 0 < amount)
    (hf : findByAddress db addr = some r) (hsp : r.spent ≠ 1)
    (hne : amount ≠ (r.initial_amount : Int)) :
    (processMintRequest db addr uid amount sig sigOk upstream).result =
      .error (.validation (amountMismatchMsg amount r.initial_amount)) ∧
    (AppErr.validation (amountMismatchMsg amount r.initial_amount)).statusCode = 400 ∧
    (processMintRequest db addr uid amount sig sigOk upstream).db.balances
      = db.balances ∧
    (∀ a, Event.verify a ∉ (processMintRequest db addr uid amount sig sigOk upstream).events ∧
          Event.reserve a ∉ (processMintRequest db addr uid amount sig sigOk upstream).events) ∧
    (∀ (sigOk' : Bool) (upstream' : Option UpstreamResponse),
      processMintRequest db addr uid amount sig sigOk' upstream' =
        processMintRequest db addr uid amount sig sigOk upstream) := by
  have key := fun (s' : Bool) (u' : Option UpstreamResponse) =>
    processMintRequest_mismatch db addr uid amount sig r s' u' huid hamt hf hsp hne
  refine ⟨?_, rfl, ?_, ?_, ?_⟩
  · rw [key sigOk upstream]
  · rw [key sigOk upstream]
    rfl
  · intro a
    rw [key sigOk upstream]
    constructor <;> simp
  · intro s' u'
    rw [key s' u', key sigOk upstream]

/-- C5 witness: a concrete mismatching request is rejected with the
mismatch error. -/
theorem c5_amount_mismatch_witness :
    (processMintRequest ⟨[⟨"alpha1q", 100, 0, none, none, none⟩], [], 1, 0⟩
       "alpha1q" "uid" 99 "sig" true none).result =
      .error (.validation (amountMismatchMsg 99 100)) :=
  (c5_amount_mismatch ⟨[⟨"alpha1q", 100, 0, none, none, none⟩], [], 1, 0⟩
    "alpha1q" "uid" 99 "sig" ⟨"alpha1q", 100, 0, none, none, none⟩ true none
    (by decide) (by decide) (by decide) (by decide) (by decide)).1

/-- Finalizing a log row that is present with the matching id yields a row
with the new status. -/
theorem updateMintRequest_mem {db : DB} {row : MintRequestRow} (i : Nat)
    (st : String) (e rp : Option String)
    (hm : row ∈ db.mint_requests) (hid : row.id = i) :
    ∃ row' ∈ (updateMintRequest db i st e rp).mint_requests,
      row'.id = i ∧ row'.status = st := by
  refine ⟨{row with status := st, error_message := e, faucet_response := rp},
    ?_, hid, rfl⟩
  have hmem := List.mem_map_of_mem
    (fun r => if r.id = i then
        { r with status := st, error_message := e, faucet_response := rp }
      else r) hm
  dsimp only at hmem
  rw [if_pos hid] at hmem
  exact hmem

/-- A claim against an already spent row short-circuits as
`AlreadyMinted` at step 2. -/
theorem processMintRequest_alreadySpent (db : DB) (addr uid : String)
    (amount : Int) (sig : String) (sigOk : Bool)
    (upstream : Option UpstreamResponse) (r : BalanceRow)
    (huid : uid ≠ "") (hamt : 0 < amount)
    (hf : findByAddress db addr = some r) (hsp : r.spent = 1) :
    (processMintRequest db addr uid amount sig sigOk upstream).result =
      .error (.alreadyMinted ("Address " ++ addr
        ++ " has already been minted to " ++ r.unicity_id.getD "null")) := by
  have hu : ¬ uid.length < 1 := by
    have := string_length_pos huid
    omega
  have ha : ¬ amount ≤ 0 := by omega
  have hf1 : findByAddress (logMintRequest db addr uid amount sig).2 addr = some r := hf
  rw [processMintRequest, if_neg hu, if_neg ha]
  dsimp only
  rw [tryBody, hf1]
  dsimp only
  rw [if_pos hsp]

/-- The pipeline output when the upstream relay fails after a successful
reservation. -/
theorem processMintRequest_upstreamFail (db : DB) (addr uid : String)
    (amount : Int) (sig : String) (upstream : Option UpstreamResponse)
    (msg : String) (r : BalanceRow)
    (hwf : WF db) (huid : uid ≠ "") (hamt : 0 < amount)
    (hf : findByAddress db addr = some r) (hsp : r.spent = 0)
    (heq : amount = (r.initial_amount : Int))
    (hup : mintToken upstream = .error (.faucet msg)) :
    processMintRequest db addr uid amount sig true upstream =
      ⟨.error (.faucet msg),
       updateMintRequest
         (runMarkAsSpent (logMintRequest db addr uid amount sig).2
           uid "pending" addr).2
         db.nextId "failed" (some msg) none,
       [.logReq db.nextId, .find addr, .verify addr, .reserve addr, .relay uid,
        .updateReq db.nextId "failed"]⟩ := by
  have hu : ¬ uid.length < 1 := by
    have := string_length_pos huid
    omega
  have ha : ¬ amount ≤ 0 := by omega
  have hf1 : findByAddress (logMintRequest db addr uid amount sig).2 addr = some r := hf
  have hwf1 : WF (logMintRequest db addr uid amount sig).2 := hwf
  rw [processMintRequest, if_neg hu, if_neg ha]
  dsimp only
  rw [tryBody, hf1]
  dsimp only
  rw [if_neg (by omega : ¬ r.spent = 1), if_neg (not_not_intro heq),
    if_neg (by simp)]
  rw [atomicMarkAsSpent_fresh uid "pending" hwf1 hf1 hsp]
  dsimp only
  rw [if_neg (by simp), hup]
  rfl

/-- C3: when the upstream mint fails after reservation, the claim errors
with the 502 upstream failure, the balance row stays `spent = 1` with
`mint_tx_id = "pending"` (no rollback), the claim-log row is finalized as
failed, and every subsequent claim against the address fails as
`AlreadyConsumed`; and `mintToken` maps both a missing response and a
non-200 status to that upstream failure. -/
theorem c3_upstream_failure (db : DB) (addr uid : String) (amount : Int)
    (sig : String) (upstream : Option UpstreamResponse) (msg : String)
    (r : BalanceRow)
    (hwf : WF db) (huid : uid ≠ "") (hamt : 0 < amount)
    (hf : findByAddress db addr = some r) (hsp : r.spent = 0)
    (heq : amount = (r.initial_amount : Int))
    (hup : mintToken upstream = .error (.faucet msg)) :
    (∀ (resp : Option UpstreamResponse),
      (resp = none ∨ ∃ u, resp = some u ∧ u.statusCode ≠ 200) →
      ∃ m, mintToken resp = .error (.faucet m)) ∧
    (processMintRequest db addr uid amount sig true upstream).result
      = .error (.faucet msg) ∧
    (AppErr.faucet msg).statusCode = 502 ∧
    findByAddress (processMintRequest db addr uid amount sig true upstream).db addr
      = some (markUpdate uid "pending" db.now r) ∧
    (markUpdate uid "pending" db.now r).spent = 1 ∧
    (markUpdate uid "pending" db.now r).mint_tx_id = some "pending" ∧
    (∃ row ∈ (processMintRequest db addr uid amount sig true upstream).db.mint_requests,
      row.id = db.nextId ∧ row.status = "failed") ∧
    (∀ (uid' : String) (amount' : Int) (sig' : String) (sigOk' : Bool)
        (up' : Option UpstreamResponse),
      uid' ≠ "" → 0 < amount' →
      ∃ m, (processMintRequest
              (processMintRequest db addr uid amount sig true upstream).db
              addr uid' amount' sig' sigOk' up').result
            = .error (.alreadyMinted m)) := by
  have key := processMintRequest_upstreamFail db addr uid amount sig upstream msg r
    hwf huid hamt hf hsp heq hup
  have hf1 : findByAddress (logMintRequest db addr uid amount sig).2 addr = some r := hf
  have hhit : markHit addr r = true := by
    rw [markHit, List.find?_some hf, Bool.true_and, hsp]
    rfl
  have hfind : findByAddress (processMintRequest db addr uid amount sig true upstream).db addr
      = some (markUpdate uid "pending" db.now r) := by
    rw [key]
    show findByAddress
      (runMarkAsSpent (logMintRequest db addr uid amount sig).2 uid "pending" addr).2
      addr = _
    rw [findByAddress_runMark, hf1]
    show some (if markHit addr r then markUpdate uid "pending"
        (logMintRequest db addr uid amount sig).2.now r else r) = _
    rw [if_pos hhit]
    rfl
  refine ⟨?_, by rw [key], rfl, hfind, rfl, rfl, ?_, ?_⟩
  · intro resp hr
    cases resp with
    | none => exact ⟨"Failed to contact upstream faucet", rfl⟩
    | some u =>
      rcases hr with h | ⟨u', hu', h200⟩
      · cases h
      · cases hu'
        refine ⟨"Upstream faucet error: "
          ++ u.bodyError.getD (u.bodyMessage.getD "Unknown upstream error"), ?_⟩
        rw [mintToken]
        rw [if_pos h200]
  · rw [key]
    show ∃ row ∈ (updateMintRequest
        (runMarkAsSpent (logMintRequest db addr uid amount sig).2
          uid "pending" addr).2
        db.nextId "failed" (some msg) none).mint_requests,
      row.id = db.nextId ∧ row.status = "failed"
    apply updateMintRequest_mem
    · show (⟨db.nextId, addr, uid, amount, sig, "pending", none, none⟩ :
          MintRequestRow) ∈ db.mint_requests ++ [_]
      exact List.mem_append_right _ (List.mem_singleton.mpr rfl)
    · rfl
  · intro uid' amount' sig' sigOk' up' huid' hamt'
    exact ⟨_, processMintRequest_alreadySpent _ addr uid' amount' sig' sigOk' up'
      (markUpdate uid "pending" db.now r) huid' hamt' hfind rfl⟩

/-- C3 witness: concrete single-row store, matching amount, upstream 502;
the claim fails with the upstream error and a second claim is rejected as
already minted. -/
theorem c3_upstream_failure_witness :
    (processMintRequest ⟨[⟨"alpha1q", 100, 0, none, none, none⟩], [], 1, 0⟩
       "alpha1q" "uid" 100 "sig" true
       (some ⟨502, some "boom", none, none, none, "body"⟩)).result
      = .error (.faucet "Upstream faucet error: boom") :=
  (c3_upstream_failure ⟨[⟨"alpha1q", 100, 0, none, none, none⟩], [], 1, 0⟩
    "alpha1q" "uid" 100 "sig"
    (some ⟨502, some "boom", none, none, none, "body"⟩)
    "Upstream faucet error: boom" ⟨"alpha1q", 100, 0, none, none, none⟩
    (by constructor <;> decide) (by decide) (by decide) (by decide) (by decide)
    (by decide) rfl).2.1

/-- C2: evaluation of the pipeline at a concrete happy-path input. The
upstream relay succeeds with tx id `"xyz"` and the pipeline returns that
tx id to the caller, but the step-7 finalize runs the `markAsSpent`
statement whose `WHERE` clause carries `AND spent = 0`; the row was
already set to `spent = 1` by the step-5 reservation, so the update
matches no rows and `mint_tx_id` stays `"pending"` — the claim-log row is
still finalized as success. Re-running the finalize statement afterwards
also reports zero changes. -/
theorem c2_finalize_noop :
    (∃ p, (processMintRequest ⟨[⟨"alpha1q", 100, 0, none, none, none⟩], [], 1, 0⟩
        "alpha1q" "uid" 100 "sig" true
        (some ⟨200, none, none, some "xyz", none, "body"⟩)).result = .ok p ∧
      p.txId = "xyz") ∧
    findByAddress (processMintRequest ⟨[⟨"alpha1q", 100, 0, none, none, none⟩], [], 1, 0⟩
        "alpha1q" "uid" 100 "sig" true
        (some ⟨200, none, none, some "xyz", none, "body"⟩)).db "alpha1q"
      = some ⟨"alpha1q", 100, 1, some "uid", some "pending", some 0⟩ ∧
    (processMintRequest ⟨[⟨"alpha1q", 100, 0, none, none, none⟩], [], 1, 0⟩
        "alpha1q" "uid" 100 "sig" true
        (some ⟨200, none, none, some "xyz", none, "body"⟩)).db.mint_requests
      = [⟨1, "alpha1q", "uid", 100, "sig", "success", none, some "body"⟩] ∧
    (markAsSpent (processMintRequest ⟨[⟨"alpha1q", 100, 0, none, none, none⟩], [], 1, 0⟩
        "alpha1q" "uid" 100 "sig" true
        (some ⟨200, none, none, some "xyz", none, "body"⟩)).db
      "alpha1q" "uid" "xyz").1 = false :=
  ⟨⟨_, rfl, rfl⟩, rfl, rfl, rfl⟩

/-- C10: querying the balance of a valid address that is absent from the
snapshot is not an error: the handler answers HTTP 200 with a successful
zero balance (`amount`, `amountInSmallUnits`, `initialAmount`,
`initialAmountInSmallUnits` all 0, `spent = false`,
`inSnapshot = false`, `unicityId` null). -/
theorem c10_balance_absent (db : DB) (addr : String)
    (hv : (validateAddress addr).valid = true)
    (hn : findByAddress db ((validateAddress addr).normalized.getD "") = none) :
    balanceHandler db addr =
      (200, some ⟨true, (validateAddress addr).normalized.getD "", none,
        0, 0, 0, 0, false, false, none⟩) := by
  rw [balanceHandler]
  rw [if_pos hv, getBalance, hn]

set_option maxRecDepth 100000 in
/-- C10 witness: a concrete valid address against an empty snapshot. -/
theorem c10_balance_absent_witness :
    balanceHandler ⟨[], [], 1, 0⟩ "alpha1qqqqqqqqqqqqqqqqqqqqqqqqqqqqqqqqq8r5x3m" =
      (200, some ⟨true,
        (validateAddress "alpha1qqqqqqqqqqqqqqqqqqqqqqqqqqqqqqqqq8r5x3m").normalized.getD "",
        none, 0, 0, 0, 0, false, false, none⟩) :=
  c10_balance_absent ⟨[], [], 1, 0⟩ "alpha1qqqqqqqqqqqqqqqqqqqqqqqqqqqqqqqqq8r5x3m"
    (by decide) (by decide)

theorem atomicMarkAsSpent_mint_requests (db : DB) (a u t : String) :
    (atomicMarkAsSpent db a u t).2.mint_requests = db.mint_requests := by
  rw [atomicMarkAsSpent]
  cases hf : findByAddress db a with
  | none => rfl
  | some r =>
    dsimp only
    by_cases h1 : r.spent = 1
    · rw [if_pos h1]
    · rw [if_neg h1]
      by_cases h2 : (runMarkAsSpent db u t a).1 ≠ 1
      · rw [if_pos h2]
        rfl
      · rw [if_neg h2]
        rfl

/-- Every run of the `try` block either fails — leaving the claim log
untouched — or succeeds having finalized exactly its own log row as
success; it emits no ingress-log events and no other log updates. -/
theorem tryBody_cases (db1 : DB) (rid : Nat) (addr uid : String) (amt : Int)
    (sigOk : Bool) (up : Option UpstreamResponse) :
    (∃ e db2 evs, tryBody db1 rid addr uid amt sigOk up = (.error e, db2, evs) ∧
      db2.mint_requests = db1.mint_requests ∧
      evs.countP isLogEvent = 0 ∧ evs.countP isUpdateEvent = 0) ∨
    (∃ p m db3 evs, tryBody db1 rid addr uid amt sigOk up =
        (.ok p, updateMintRequest db3 rid "success" none (some m),
         evs ++ [Event.updateReq rid "success"]) ∧
      db3.mint_requests = db1.mint_requests ∧
      evs.countP isLogEvent = 0 ∧ evs.countP isUpdateEvent = 0) := by
  rw [tryBody]
  cases hf : findByAddress db1 addr with
  | none => exact Or.inl ⟨_, _, _, rfl, rfl, rfl, rfl⟩
  | some record =>
    dsimp only
    by_cases h1 : record.spent = 1
    · rw [if_pos h1]
      exact Or.inl ⟨_, _, _, rfl, rfl, rfl, rfl⟩
    · rw [if_neg h1]
      by_cases h2 : amt ≠ (record.initial_amount : Int)
      · rw [if_pos h2]
        exact Or.inl ⟨_, _, _, rfl, rfl, rfl, rfl⟩
      · rw [if_neg h2]
        by_cases h3 : ¬ sigOk = true
        · rw [if_pos h3]
          exact Or.inl ⟨_, _, _, rfl, rfl, rfl, rfl⟩
        · rw [if_neg h3]
          by_cases h4 : (atomicMarkAsSpent db1 addr uid "pending").1.success = false
          · rw [if_pos h4]
            by_cases h5 : (atomicMarkAsSpent db1 addr uid "pending").1.error
                = some ConsumeError.already_minted
            · rw [if_pos h5]
              exact Or.inl ⟨_, _, _, rfl,
                atomicMarkAsSpent_mint_requests db1 addr uid "pending", rfl, rfl⟩
            · rw [if_neg h5]
              exact Or.inl ⟨_, _, _, rfl,
                atomicMarkAsSpent_mint_requests db1 addr uid "pending", rfl, rfl⟩
          · rw [if_neg h4]
            cases hm : mintToken up with
            | error e =>
              exact Or.inl ⟨_, _, _, rfl,
                atomicMarkAsSpent_mint_requests db1 addr uid "pending", rfl, rfl⟩
            | ok m =>
              refine Or.inr ⟨_, m.data, _,
                [.find addr, .verify addr, .reserve addr, .relay uid,
                 .finalize addr], rfl, ?_, rfl, rfl⟩
              exact atomicMarkAsSpent_mint_requests db1 addr uid "pending"

/-- C9 (amended): every claim attempt that passes the coordinator's
destination and amount validation produces exactly one claim-log row,
created with status `pending`, and that row is updated exactly once — to
`success` or to `failed` — when the pipeline resolves; any log update the
pipeline performs targets this attempt's own row. -/
theorem c9_claim_log_amended (db : DB) (addr uid : String) (amount : Int)
    (sig : String) (sigOk : Bool) (upstream : Option UpstreamResponse)
    (huid : uid ≠ "") (hamt : 0 < amount) :
    (logMintRequest db addr uid amount sig).2.mint_requests =
      db.mint_requests ++
        [⟨db.nextId, addr, uid, amount, sig, "pending", none, none⟩] ∧
    (processMintRequest db addr uid amount sig sigOk upstream).events.countP
      isLogEvent = 1 ∧
    (processMintRequest db addr uid amount sig sigOk upstream).events.countP
      isUpdateEvent = 1 ∧
    (∀ i st, Event.updateReq i st ∈
        (processMintRequest db addr uid amount sig sigOk upstream).events →
      i = db.nextId ∧ (st = "success" ∨ st = "failed")) ∧
    (∃ row ∈ (processMintRequest db addr uid amount sig sigOk upstream).db.mint_requests,
      row.id = db.nextId ∧ (row.status = "success" ∨ row.status = "failed")) := by
  have hu : ¬ uid.length < 1 := by
    have := string_length_pos huid
    omega
  have ha : ¬ amount ≤ 0 := by omega
  have hrow : (⟨db.nextId, addr, uid, amount, sig, "pending", none, none⟩ :
      MintRequestRow) ∈ (logMintRequest db addr uid amount sig).2.mint_requests :=
    List.mem_append_right _ (List.mem_singleton.mpr rfl)
  rcases tryBody_cases (logMintRequest db addr uid amount sig).2
      (logMintRequest db addr uid amount sig).1 addr uid amount sigOk upstream with
    ⟨e, db2, evs, hbody, hmr, hcl, hcu⟩ | ⟨p, m, db3, evs, hbody, hmr, hcl, hcu⟩
  · have hout : processMintRequest db addr uid amount sig sigOk upstream =
        ⟨.error e,
         updateMintRequest db2 (logMintRequest db addr uid amount sig).1 "failed"
           (some e.message) none,
         .logReq (logMintRequest db addr uid amount sig).1 ::
           (evs ++ [.updateReq (logMintRequest db addr uid amount sig).1 "failed"])⟩ := by
      rw [processMintRequest, if_neg hu, if_neg ha]
      dsimp only
      rw [hbody]
    refine ⟨rfl, ?_, ?_, ?_, ?_⟩
    · rw [hout]
      simp [List.countP_cons, List.countP_append, hcl, hcu, isLogEvent, isUpdateEvent]
    · rw [hout]
      simp [List.countP_cons, List.countP_append, hcl, hcu, isLogEvent, isUpdateEvent]
    · intro i st hmem
      rw [hout] at hmem
      simp only [List.mem_cons, List.mem_append, List.mem_singleton,
        List.not_mem_nil, or_false] at hmem
      rcases hmem with h | h | h
      · cases h
      · exfalso
        have hcontra := List.countP_eq_zero.mp hcu _ h
        simp [isUpdateEvent] at hcontra
      · injection h with h1 h2
        subst h1
        subst h2
        exact ⟨rfl, Or.inr rfl⟩
    · rw [hout]
      have hm2 : (⟨db.nextId, addr, uid, amount, sig, "pending", none, none⟩ :
          MintRequestRow) ∈ db2.mint_requests := by
        rw [hmr]
        exact hrow
      exact updateMintRequest_mem _ _ _ _ hm2 rfl |>.imp
        (fun row' h => ⟨h.1, h.2.1, Or.inr h.2.2⟩)
  · have hout : processMintRequest db addr uid amount sig sigOk upstream =
        ⟨.ok p,
         updateMintRequest db3 (logMintRequest db addr uid amount sig).1 "success"
           none (some m),
         .logReq (logMintRequest db addr uid amount sig).1 ::
           (evs ++ [.updateReq (logMintRequest db addr uid amount sig).1 "success"])⟩ := by
      rw [processMintRequest, if_neg hu, if_neg ha]
      dsimp only
      rw [hbody]
    refine ⟨rfl, ?_, ?_, ?_, ?_⟩
    · rw [hout]
      simp [List.countP_cons, List.countP_append, hcl, hcu, isLogEvent, isUpdateEvent]
    · rw [hout]
      simp [List.countP_cons, List.countP_append, hcl, hcu, isLogEvent, isUpdateEvent]
    · intro i st hmem
      rw [hout] at hmem
      simp only [List.mem_cons, List.mem_append, List.mem_singleton,
        List.not_mem_nil, or_false] at hmem
      rcases hmem with h | h | h
      · cases h
      · exfalso
        have hcontra := List.countP_eq_zero.mp hcu _ h
        simp [isUpdateEvent] at hcontra
      · injection h with h1 h2
        subst h1
        subst h2
        exact ⟨rfl, Or.inl rfl⟩
    · rw [hout]
      have hm2 : (⟨db.nextId, addr, uid, amount, sig, "pending", none, none⟩ :
          MintRequestRow) ∈ db3.mint_requests := by
        rw [hmr]
        exact hrow
      exact updateMintRequest_mem _ _ _ _ hm2 rfl |>.imp
        (fun row' h => ⟨h.1, h.2.1, Or.inl h.2.2⟩)

/-- C9 counterexample: a claim with an empty destination id reaches the
coordinator (it is rejected by the coordinator's own step-2 validation,
before the ingress log), yet no claim-log row is created: the claim log
stays empty and no log event is emitted. -/
theorem c9_counterexample :
    (processMintRequest ⟨[], [], 1, 0⟩ "alpha1q" "" 5 "sig" true none).result
      = .error (.validation "Invalid unicityId") ∧
    (processMintRequest ⟨[], [], 1, 0⟩ "alpha1q" "" 5 "sig" true none).db.mint_requests
      = [] ∧
    (processMintRequest ⟨[], [], 1, 0⟩ "alpha1q" "" 5 "sig" true none).events = [] :=
  ⟨rfl, rfl, rfl⟩

/-- C9 witness: a concrete attempt (not-found address) passing the first
validations produces exactly one log event and one update event. -/
theorem c9_claim_log_amended_witness :
    (processMintRequest ⟨[], [], 1, 0⟩ "alpha1q" "uid" 5 "sig" true none).events.countP
      isLogEvent = 1 ∧
    (processMintRequest ⟨[], [], 1, 0⟩ "alpha1q" "uid" 5 "sig" true none).events.countP
      isUpdateEvent = 1 :=
  ⟨(c9_claim_log_amended ⟨[], [], 1, 0⟩ "alpha1q" "uid" 5 "sig" true none
      (by decide) (by decide)).2.1,
   (c9_claim_log_amended ⟨[], [], 1, 0⟩ "alpha1q" "uid" 5 "sig" true none
      (by decide) (by decide)).2.2.1⟩

/-- C1 witness: with one fresh row and two serialized consume calls,
exactly one call succeeds. -/
theorem c1_consume_at_most_once_witness :
    ((runConsumes ⟨[⟨"alpha1q", 100, 0, none, none, none⟩], [], 1, 0⟩
        "alpha1q" [("u", "t"), ("u2", "t2")]).1.countP
      (fun x => x.success)) = 1 := by
  have h := (c1_consume_at_most_once).1
    ⟨[⟨"alpha1q", 100, 0, none, none, none⟩], [], 1, 0⟩ "alpha1q"
    ⟨"alpha1q", 100, 0, none, none, none⟩ ("u", "t") [("u2", "t2")]
    (by constructor <;> decide) (by decide) (by decide)
  rw [h.1]
  decide

/-! ## Snapshot lemmas (C8) -/

theorem createDbRows_go (batchSize : Nat) (m : List (String × Int)) :
    ∀ (acc batch : List (String × Int)),
      (m.foldl
        (fun (st : List (String × Int) × List (String × Int)) p =>
          let batch := st.2 ++ [p]
          if batchSize ≤ batch.length then (st.1 ++ batch, []) else (st.1, batch))
        (acc, batch)).1 ++
      (m.foldl
        (fun (st : List (String × Int) × List (String × Int)) p =>
          let batch := st.2 ++ [p]
          if batchSize ≤ batch.length then (st.1 ++ batch, []) else (st.1, batch))
        (acc, batch)).2 = acc ++ batch ++ m := by
  induction m with
  | nil =>
    intro acc batch
    simp
  | cons p t ih =>
    intro acc batch
    rw [List.foldl_cons]
    dsimp only
    by_cases h : batchSize ≤ (batch ++ [p]).length
    · rw [if_pos h, ih]
      simp
    · rw [if_neg h, ih]
      simp

/-- Batching is only an insertion grouping: the inserted rows are the
aggregate entries, in order. -/
theorem createDbRows_eq (m : List (String × Int)) (batchSize : Nat) :
    createDbRows m batchSize = m := by
  rw [createDbRows]
  have h := createDbRows_go batchSize m [] []
  simpa using h

theorem foldl_add_shift (l : List Utxo) (a : Int) :
    l.foldl (fun acc u => acc + toSats u.amount) a
      = a + l.foldl (fun acc u => acc + toSats u.amount) 0 := by
  induction l generalizing a with
  | nil => simp
  | cons u us ih =>
    rw [List.foldl_cons, List.foldl_cons, ih, ih (0 + toSats u.amount)]
    omega

theorem satSum_cons (block : Nat) (addr : String) (u : Utxo) (us : List Utxo) :
    satSum block addr (u :: us) =
      (if qualifies block addr u then toSats u.amount else 0)
        + satSum block addr us := by
  rw [satSum, List.filter_cons]
  by_cases hq : qualifies block addr u = true
  · rw [if_pos hq, if_pos hq, List.foldl_cons, foldl_add_shift, satSum]
    omega
  · rw [if_neg hq, if_neg hq, satSum]
    omega

theorem satSum_eq_zero {block : Nat} {addr : String} {us : List Utxo}
    (h : us.any (qualifies block addr) = false) : satSum block addr us = 0 := by
  rw [satSum, List.filter_eq_nil_iff.mpr (List.any_eq_false.mp h)]
  rfl

theorem mapGet_mapSet_self (m : List (String × Int)) (k : String) (v : Int) :
    mapGet (mapSet m k v) k = some v := by
  rw [mapSet]
  by_cases h : m.any (fun p => p.1 == k) = true
  · rw [if_pos h, mapGet]
    rw [find?_map_pres (p := fun p => p.1 == k)
      (f := fun p => if p.1 == k then (p.1, v) else p)
      (fun p => by by_cases hp : (p.1 == k) = true <;> simp [hp])]
    obtain ⟨x, hx, hpx⟩ := List.any_eq_true.mp h
    obtain ⟨y, hy⟩ : ∃ y, m.find? (fun p => p.1 == k) = some y := by
      cases hfy : m.find? (fun p => p.1 == k) with
      | some y => exact ⟨y, rfl⟩
      | none => exact absurd hpx (List.find?_eq_none.mp hfy x hx)
    rw [hy]
    have hyk : (y.1 == k) = true := by simpa using List.find?_some hy
    show some ((if (y.1 == k) = true then (y.1, v) else y).2) = some v
    rw [if_pos hyk]
  · rw [if_neg h, mapGet, List.find?_append]
    have hnone : m.find? (fun p => p.1 == k) = none := by
      rw [List.find?_eq_none]
      intro a ha hpa
      exact absurd (List.any_eq_true.mpr ⟨a, ha, hpa⟩) h
    rw [hnone]
    simp

theorem mapGet_mapSet_ne (m : List (String × Int)) {k addr : String} (v : Int)
    (hne : k ≠ addr) : mapGet (mapSet m k v) addr = mapGet m addr := by
  have hkb : (k == addr) = false := beq_eq_false_iff_ne.mpr hne
  rw [mapSet]
  by_cases h : m.any (fun p => p.1 == k) = true
  · rw [if_pos h, mapGet, mapGet]
    rw [find?_map_pres (p := fun p => p.1 == addr)
      (f := fun p => if p.1 == k then (p.1, v) else p)
      (fun p => by by_cases hp : (p.1 == k) = true <;> simp [hp])]
    cases hfy : m.find? (fun p => p.1 == addr) with
    | none => rfl
    | some y =>
      have hya : (y.1 == addr) = true := by simpa using List.find?_some hfy
      have hyk : (y.1 == k) = false := by
        rw [beq_eq_false_iff_ne]
        intro hk
        apply hne
        rw [← hk]
        exact beq_iff_eq.mp hya
      show some ((if (y.1 == k) = true then (y.1, v) else y).2) = some y.2
      rw [if_neg (by rw [hyk]; exact Bool.false_ne_true)]
  · rw [if_neg h, mapGet, mapGet, List.find?_append]
    have hsing : ([(k, v)].find? (fun p => p.1 == addr)) = none := by
      rw [List.find?_eq_none]
      intro a ha hpa
      rw [List.mem_singleton] at ha
      subst ha
      rw [hkb] at hpa
      cases hpa
    rw [hsing]
    cases m.find? (fun p => p.1 == addr) <;> rfl

/-- A qualifying UTXO makes the loop update exactly its own address. -/
theorem scanStep_qual {block : Nat} {addr : String} {u : Utxo}
    (hq : qualifies block addr u = true) (m : List (String × Int)) :
    scanStep block m u = mapSet m addr ((mapGet m addr).getD 0 + toSats u.amount) := by
  rw [qualifies] at hq
  cases hadr : u.address with
  | none =>
    rw [hadr] at hq
    simp at hq
  | some a =>
    rw [hadr] at hq
    rw [Bool.and_eq_true] at hq
    obtain ⟨hh, hq2⟩ := hq
    rw [Bool.and_eq_true] at hq2
    obtain ⟨hak, hpre⟩ := hq2
    have ha : a = addr := beq_iff_eq.mp hak
    subst ha
    rw [scanStep, if_neg (by have := of_decide_eq_true hh; omega), hadr]
    dsimp only
    rw [if_pos hpre]

/-- A non-qualifying UTXO leaves the address's running sum unchanged. -/
theorem scanStep_not_qual {block : Nat} {addr : String} {u : Utxo}
    (hq : qualifies block addr u = false) (m : List (String × Int)) :
    mapGet (scanStep block m u) addr = mapGet m addr := by
  rw [scanStep]
  by_cases hh : block < u.height
  · rw [if_pos hh]
  · rw [if_neg hh]
    cases hadr : u.address with
    | none => rfl
    | some a =>
      dsimp only
      by_cases hp : ("alpha1".data.isPrefixOf a.data) = true
      · rw [if_pos hp]
        have hane : a ≠ addr := by
          intro hak
          subst hak
          rw [qualifies, hadr] at hq
          dsimp only at hq
          rw [decide_eq_true (Nat.not_lt.mp hh), Bool.true_and,
            beq_self_eq_true, Bool.true_and, hp] at hq
          cases hq
        exact mapGet_mapSet_ne m _ hane
      · rw [if_neg hp]

/-- The running aggregate at one address: if any processed output
qualifies, the entry is the prior value plus the satoshi sum; otherwise
the entry is untouched. -/
theorem scanAgg_mapGet (block : Nat) (addr : String) (utxos : List Utxo) :
    ∀ m : List (String × Int),
      mapGet (utxos.foldl (scanStep block) m) addr =
        if utxos.any (qualifies block addr) then
          some ((mapGet m addr).getD 0 + satSum block addr utxos)
        else mapGet m addr := by
  induction utxos with
  | nil =>
    intro m
    rw [List.foldl_nil, List.any_nil, if_neg (by simp)]
  | cons u us ih =>
    intro m
    rw [List.foldl_cons, List.any_cons]
    by_cases hq : qualifies block addr u = true
    · rw [scanStep_qual hq m, ih]
      have hor : (qualifies block addr u || us.any (qualifies block addr)) = true := by
        rw [hq, Bool.true_or]
      rw [hor, if_pos rfl]
      by_cases ha : us.any (qualifies block addr) = true
      · rw [if_pos ha, mapGet_mapSet_self, satSum_cons, if_pos hq]
        rw [Option.getD_some]
        rw [Option.some_inj]
        omega
      · rw [if_neg ha, mapGet_mapSet_self, satSum_cons, if_pos hq,
          satSum_eq_zero (Bool.eq_false_iff.mpr ha)]
        rw [Option.some_inj]
        omega
    · have hqf : qualifies block addr u = false := Bool.eq_false_iff.mpr hq
      rw [ih (scanStep block m u), scanStep_not_qual hqf m]
      have hor : (qualifies block addr u || us.any (qualifies block addr))
          = us.any (qualifies block addr) := by
        rw [hqf, Bool.false_or]
      rw [hor]
      by_cases ha : us.any (qualifies block addr) = true
      · rw [if_pos ha, if_pos ha, satSum_cons, if_neg hq]
        rw [Option.some_inj]
        omega
      · rw [if_neg ha, if_neg ha]

theorem keysDistinct_mapSet (m : List (String × Int)) (k : String) (v : Int)
    (h : KeysDistinct m) : KeysDistinct (mapSet m k v) := by
  rw [mapSet]
  by_cases hany : m.any (fun p => p.1 == k) = true
  · rw [if_pos hany, KeysDistinct, List.pairwise_map]
    apply h.imp
    intro a b hab
    by_cases ha : (a.1 == k) = true <;> by_cases hb : (b.1 == k) = true <;>
      simp [ha, hb] <;> exact hab
  · rw [if_neg hany, KeysDistinct, List.pairwise_append]
    refine ⟨h, List.pairwise_singleton _ _, ?_⟩
    intro a ha b hb
    rw [List.mem_singleton] at hb
    subst hb
    intro heq
    have := List.any_eq_false.mp (Bool.eq_false_iff.mpr hany) a ha
    exact this (by rw [heq]; exact beq_self_eq_true k)

theorem keysDistinct_scanAgg (block : Nat) (utxos : List Utxo) :
    KeysDistinct (scanAggregate block utxos) := by
  rw [scanAggregate]
  have hgo : ∀ m : List (String × Int), KeysDistinct m →
      KeysDistinct (utxos.foldl (scanStep block) m) := by
    induction utxos with
    | nil => intro m hm; exact hm
    | cons u us ih =>
      intro m hm
      rw [List.foldl_cons]
      apply ih
      rw [scanStep]
      by_cases hh : block < u.height
      · rw [if_pos hh]
        exact hm
      · rw [if_neg hh]
        cases u.address with
        | none => exact hm
        | some a =>
          dsimp only
          by_cases hp : ("alpha1".data.isPrefixOf a.data) = true
          · rw [if_pos hp]
            exact keysDistinct_mapSet _ _ _ hm
          · rw [if_neg hp]
            exact hm
  exact hgo [] (List.Pairwise.nil)

theorem mapGet_of_mem {m : List (String × Int)} (h : KeysDistinct m)
    {p : String × Int} (hp : p ∈ m) : mapGet m p.1 = some p.2 := by
  induction m with
  | nil => cases hp
  | cons q t ih =>
    rw [KeysDistinct, List.pairwise_cons] at h
    cases hp with
    | head =>
      rw [mapGet, List.find?_cons]
      rw [show (p.1 == p.1) = true from beq_self_eq_true p.1]
      rfl
    | tail _ hpt =>
      have hne : (q.1 == p.1) = false := by
        rw [beq_eq_false_iff_ne]
        exact h.1 p hpt
      rw [mapGet, List.find?_cons, hne]
      exact ih h.2 hpt

/-- C8 (amended): every row the builder inserts carries exactly the
satoshi sum (`round(value * 1e8)` per output) of the qualifying unspent
outputs of its address at the snapshot height — including rows whose sum
is zero, which the builder does not filter out. -/
theorem c8_snapshot_amended (block : Nat) (utxos : List Utxo) (batchSize : Nat) :
    createDbRows (scanAggregate block utxos) batchSize = scanAggregate block utxos ∧
    ∀ p ∈ scanAggregate block utxos, p.2 = satSum block p.1 utxos := by
  refine ⟨createDbRows_eq _ _, ?_⟩
  intro p hp
  have hget := mapGet_of_mem (keysDistinct_scanAgg block utxos) hp
  have hinv := scanAgg_mapGet block p.1 utxos []
  rw [scanAggregate] at hget
  rw [hget] at hinv
  by_cases ha : utxos.any (qualifies block p.1) = true
  · rw [if_pos ha] at hinv
    have : (mapGet [] p.1) = none := rfl
    rw [this] at hinv
    rw [Option.some_inj] at hinv
    rw [Option.getD_none] at hinv
    omega
  · rw [if_neg ha] at hinv
    cases hinv

/-- C8 counterexample: a single zero-value `alpha1` output at the
snapshot height makes the builder insert a row with `initial_amount = 0`;
the claim's "never inserts a zero row" is false of the code. -/
theorem c8_zero_row_counterexample :
    ("alpha1q", (0 : Int)) ∈
      createDbRows (scanAggregate 0 [⟨0, some "alpha1q", 0⟩]) 1000 := by
  have ht : toSats 0 = 0 := by
    rw [toSats]
    norm_num
  have hagg : scanAggregate 0 [⟨0, some "alpha1q", 0⟩] = [("alpha1q", 0)] := by
    rw [scanAggregate, List.foldl_cons, List.foldl_nil, scanStep]
    rw [if_neg (by decide)]
    dsimp only
    rw [if_pos (by decide), ht]
    rfl
  rw [createDbRows_eq, hagg]
  exact List.mem_singleton.mpr rfl

/-- C8 witness: the amended sum equality at a concrete UTXO set with two
deposits to one address. -/
theorem c8_snapshot_amended_witness :
    (500000000 : Int) = satSum 5 "alpha1q"
      [⟨1, some "alpha1q", 2⟩, ⟨2, some "alpha1q", 3⟩] := by
  have ht1 : toSats 2 = 200000000 := by
    rw [toSats]
    norm_num
  have ht2 : toSats 3 = 300000000 := by
    rw [toSats]
    norm_num
  have h1 : scanStep 5 [] ⟨1, some "alpha1q", 2⟩ = [("alpha1q", 200000000)] := by
    rw [scanStep, if_neg (by decide)]
    dsimp only
    rw [if_pos (by decide), ht1]
    rfl
  have h2 : scanStep 5 [("alpha1q", 200000000)] ⟨2, some "alpha1q", 3⟩
      = [("alpha1q", 500000000)] := by
    rw [scanStep, if_neg (by decide)]
    dsimp only
    rw [if_pos (by decide), ht2]
    rfl
  have hagg : scanAggregate 5 [⟨1, some "alpha1q", 2⟩, ⟨2, some "alpha1q", 3⟩]
      = [("alpha1q", 500000000)] := by
    rw [scanAggregate, List.foldl_cons, h1, List.foldl_cons, h2, List.foldl_nil]
  exact (c8_snapshot_amended 5 [⟨1, some "alpha1q", 2⟩, ⟨2, some "alpha1q", 3⟩]
    1000).2 ("alpha1q", 500000000) (by rw [hagg]; exact List.mem_singleton.mpr rfl)

end Faucet
